import Mathlib

/-! Nullable primitive types: the Go package `nulls`.

A shallow embedding of the Go package `nulls` (`bool.go`, `int.go`, `int32.go`,
`int64.go`, `uint32.go`, `float32.go`, `string.go`, `time.go`): every type pairs a
primitive value with a `Valid` flag, and converts to and from driver values, JSON
text, XML elements and XML attributes.

Conventions of the embedding.

* A Go `string` or `[]byte` is a list of bytes (`GoString`).
* A Go `error` is `Option GoError`; `none` is the `nil` error.
* A method with a pointer receiver takes the receiver's prior state and returns
  the state after the call together with the returned error.
* Machine integers are mathematical integers; every conversion of the source
  (`int32(i)`, `uint32(i)`, `int64(u)`) is an explicit wrap-around function.
* A call that can abort with a run-time panic returns an `Outcome`.
* `strconv.IntSize` depends on the platform and is a parameter (`Platform`).
* A value held in an `interface{}` is a `GoValue`, tagged with its dynamic type.
* The types of `float32`, `float64` and `time.Time` values are type parameters,
  and the library calls on them (`strconv.ParseFloat`, `time.Time.UnmarshalJSON`,
  `json.Marshal`, ...) are function parameters; so are the XML encoder and decoder
  (`EncodeElement`, `DecodeElement`).
-/

/-! ## Go values -/

/-- A Go `string` or `[]byte`: a finite sequence of bytes. -/
abbrev GoString := List (Fin 256)

/-- The bytes of an ASCII string literal of the source, such as `"null"`. -/
def str (s : String) : GoString := s.toList.map (fun c => Fin.ofNat c.toNat)

/-- The non-nil `error` values of the modelled calls: `strconv.ErrSyntax` and
`strconv.ErrRange` (wrapped in a `*strconv.NumError`), the bit-size error of
`strconv.ParseUint`, and the `*json.SyntaxError` of `json.Unmarshal`. -/
inductive GoError where
  | ErrSyntax
  | ErrRange
  | ErrBitSize
  | JSONSyntaxError
deriving DecidableEq, Repr

/-- Result of a call that either returns normally or aborts with a panic. -/
inductive Outcome (α : Type) where
  | returned (a : α)
  | panicked
deriving DecidableEq, Repr

/-- The word size of the platform the package is compiled for. -/
inductive Platform where
  | bits32
  | bits64
deriving DecidableEq, Repr

/-- Go's `strconv.IntSize`: the size in bits of an `int`. -/
def IntSize : Platform → Nat
  | .bits32 => 32
  | .bits64 => 64

/-- The conversion `int32(i)`: the low 32 bits of `i`, read as two's complement. -/
def toInt32 (i : Int) : Int := (i + 2 ^ 31) % 2 ^ 32 - 2 ^ 31

/-- The conversion `int64(i)`: the low 64 bits of `i`, read as two's complement. -/
def toInt64 (i : Int) : Int := (i + 2 ^ 63) % 2 ^ 64 - 2 ^ 63

/-- The conversion `uint32(i)`: the low 32 bits of `i`. -/
def toUint32 (i : Int) : Nat := (i % 2 ^ 32).toNat

/-- The conversion `uint64(i)`: the low 64 bits of `i`. -/
def toUint64 (i : Int) : Nat := (i % 2 ^ 64).toNat

/-- The conversion `int(i)` on platform `p`. -/
def toInt (p : Platform) (i : Int) : Int :=
  match p with
  | .bits32 => toInt32 i
  | .bits64 => toInt64 i

/-- Go's `xml.Name`. -/
structure XmlName where
  Space : GoString
  Local : GoString
deriving DecidableEq, Repr

/-- Go's `xml.Attr`. -/
structure XmlAttr where
  Name : XmlName
  Value : GoString
deriving DecidableEq, Repr

/-- The zero value `xml.Attr{}`. -/
def XmlAttr.zero : XmlAttr := ⟨⟨[], []⟩, []⟩

/-- Go's `xml.StartElement`. -/
structure XmlStartElement where
  Name : XmlName
  Attr : List XmlAttr
deriving DecidableEq, Repr

/-- A Go value held in an `interface{}` (a `driver.Value` is one), tagged with its
dynamic type. `F32`, `F64` and `T` are the types of the `float32`, `float64` and
`time.Time` values, which this development leaves abstract. -/
inductive GoValue (F32 F64 T : Type) where
  | nil
  | bool (b : Bool)
  | int (i : Int)
  | int32 (i : Int)
  | int64 (i : Int)
  | uint32 (u : Nat)
  | float32 (f : F32)
  | float64 (f : F64)
  | string (s : GoString)
  | bytes (b : GoString)
  | time (t : T)

/-! ## The standard library calls the package makes -/

/-- The digit loop of `strconv.ParseUint` at base 10, on an accumulator `n` that
holds a `uint64`. A byte outside `'0'..'9'` is a syntax error; `n >= cutoff`
(with `cutoff = maxUint64/10 + 1`) means `n*10` overflows; `n1 < n || n1 > maxVal`
means that adding the digit overflowed 64 bits or the requested size. On a range
error Go returns `maxVal` next to the error. -/
def parseUintLoop (maxVal : Nat) : Nat → GoString → Nat × Option GoError
  | n, [] => (n, none)
  | n, c :: cs =>
    if 48 ≤ c.val ∧ c.val ≤ 57 then
      if n ≥ (2 ^ 64 - 1) / 10 + 1 then (maxVal, some .ErrRange)
      else
        let n10 := n * 10 % 2 ^ 64
        let n1 := (n10 + (c.val - 48)) % 2 ^ 64
        if n1 < n10 ∨ n1 > maxVal then (maxVal, some .ErrRange)
        else parseUintLoop maxVal n1 cs
    else (0, some .ErrSyntax)

/-- Go's `strconv.ParseUint(s, 10, bitSize)`. Every call of the package passes
base 10, so the base is fixed here. The package passes 32, 64 or
`strconv.IntSize` as `bitSize`; the value 0 (which Go reads as `IntSize`) is not
used by the package and is rejected here together with sizes above 64. -/
def ParseUint (s : GoString) (bitSize : Nat) : Nat × Option GoError :=
  if s = [] then (0, some .ErrSyntax)
  else if bitSize = 0 ∨ 64 < bitSize then (0, some .ErrBitSize)
  else parseUintLoop (2 ^ bitSize - 1) 0 s

/-- The second half of `strconv.ParseInt`: given the sign and the result
`(un, err)` of `ParseUint`, pass on an error other than a range error, else
check `un` against `cutoff = 1 << (bitSize-1)` and convert it to `int64`. -/
def parseIntSigned (neg : Bool) (bitSize : Nat) (r : Nat × Option GoError) :
    Int × Option GoError :=
  let un := r.1
  if r.2 ≠ none ∧ r.2 ≠ some .ErrRange then (0, r.2)
  else
    let cutoff : Nat := 2 ^ (bitSize - 1)
    if neg = false ∧ un ≥ cutoff then (toInt64 ((cutoff - 1 : Nat) : Int), some .ErrRange)
    else if neg = true ∧ un > cutoff then (toInt64 (-(toInt64 (cutoff : Int))), some .ErrRange)
    else
      let n := toInt64 (un : Int)
      (if neg then toInt64 (-n) else n, none)

/-- Go's `strconv.ParseInt(s, 10, bitSize)`: an empty text is a syntax error;
an optional sign `+` (43) or `-` (45) is picked off, `ParseUint` reads the rest,
and `parseIntSigned` checks the signed range. -/
def ParseInt (s : GoString) (bitSize : Nat) : Int × Option GoError :=
  match s with
  | [] => (0, some .ErrSyntax)
  | c :: rest =>
    let neg : Bool := decide (c.val = 45)
    let s1 := if c.val = 43 ∨ c.val = 45 then rest else c :: rest
    parseIntSigned neg bitSize (ParseUint s1 bitSize)

/-- Go's `strconv.ParseBool`. -/
def ParseBool (s : GoString) : Bool × Option GoError :=
  if s = str "1" ∨ s = str "t" ∨ s = str "T" ∨ s = str "TRUE" ∨ s = str "true"
      ∨ s = str "True" then (true, none)
  else if s = str "0" ∨ s = str "f" ∨ s = str "F" ∨ s = str "FALSE" ∨ s = str "false"
      ∨ s = str "False" then (false, none)
  else (false, some .ErrSyntax)

/-- The digit table `"0123456789abcdefghijklmnopqrstuvwxyz"` of `strconv`. -/
def digitByte (d : Nat) : Fin 256 :=
  if d < 10 then Fin.ofNat (48 + d) else Fin.ofNat (97 + (d - 10))

/-- The conversion loop of `strconv.formatBits`: digits of `u` in base `base`,
least significant first, written in front of `acc`. Go fills a buffer of
`64 + 1` bytes from the end; the fuel is the 64 digit positions of that buffer.
(Go has faster variants of the loop for base 10 and for powers of two, which
produce the same digits.) -/
def formatLoop (base : Nat) : Nat → Nat → GoString → GoString
  | 0, u, acc => digitByte u :: acc
  | fuel + 1, u, acc =>
    if u ≥ base then formatLoop base fuel (u / base) (digitByte (u % base) :: acc)
    else digitByte u :: acc

/-- Go's `strconv.formatBits` applied to the `uint64` `u`: it panics with
"illegal AppendInt/FormatInt base" unless `2 <= base <= 36`; when `neg` it
formats `-u` (in 64 bits) behind a `-` sign. -/
def formatBits (u : Nat) (base : Nat) (neg : Bool) : Outcome GoString :=
  if base < 2 ∨ base > 36 then .panicked
  else
    let u1 := if neg then (2 ^ 64 - u) % 2 ^ 64 else u
    let a := formatLoop base 64 u1 []
    .returned (if neg then 45 :: a else a)

/-- Go's `strconv.FormatInt(i, base)` for an `int64` `i`. -/
def FormatInt (i : Int) (base : Nat) : Outcome GoString :=
  formatBits (toUint64 i) base (decide (i < 0))

/-- Go's `strconv.FormatUint(u, base)` for a `uint64` `u`. -/
def FormatUint (u : Nat) (base : Nat) : Outcome GoString :=
  formatBits u base false

/-- Go's `json.Marshal(nil)`: the literal `null`. -/
def jsonMarshalNil : GoString × Option GoError := (str "null", none)

/-- Go's `json.Marshal` of a signed integer: `strconv.AppendInt(_, i, 10)`. -/
def jsonMarshalInt (i : Int) : Outcome (GoString × Option GoError) :=
  match FormatInt i 10 with
  | .returned s => .returned (s, none)
  | .panicked => .panicked

/-- Go's `json.Marshal` of an unsigned integer: `strconv.AppendUint(_, u, 10)`. -/
def jsonMarshalUint (u : Nat) : Outcome (GoString × Option GoError) :=
  match FormatUint u 10 with
  | .returned s => .returned (s, none)
  | .panicked => .panicked

/-- Go's `json.Marshal` of a `bool`: the literal `true` or `false`. -/
def jsonMarshalBool (b : Bool) : GoString × Option GoError :=
  (if b then str "true" else str "false", none)

/-- The white space that the JSON scanner skips: space, tab, carriage return,
line feed. -/
def jsonIsSpace (c : Fin 256) : Bool :=
  decide (c.val = 32 ∨ c.val = 9 ∨ c.val = 13 ∨ c.val = 10)

/-- The bytes that can begin a JSON value: `"`, `-`, a digit, `{`, `[`, and the
first letters of `true`, `false` and `null`. -/
def jsonBeginsValue (c : Fin 256) : Bool :=
  decide (c.val = 34 ∨ c.val = 45 ∨ (48 ≤ c.val ∧ c.val ≤ 57) ∨ c.val = 123 ∨ c.val = 91
    ∨ c.val = 116 ∨ c.val = 102 ∨ c.val = 110)

/-- Go's `json.Unmarshal(text, &s)` for a string `s` holding `old`; the result is
the string held afterwards and the error. `json.Unmarshal` first checks that the
text is valid JSON and touches nothing when it is not. Of that check the first
step is modelled: after leading white space the text must begin a JSON value,
else (also on empty input) the call returns a `*json.SyntaxError`. What the call
does on every other text is the parameter `decode`. -/
def jsonUnmarshalString (decode : GoString → GoString → GoString × Option GoError)
    (text old : GoString) : GoString × Option GoError :=
  match text.dropWhile jsonIsSpace with
  | [] => (old, some .JSONSyntaxError)
  | c :: _ => if jsonBeginsValue c then decode text old else (old, some .JSONSyntaxError)

/-- Go's `sql.NullInt64`. -/
structure SqlNullInt64 where
  Int64 : Int
  Valid : Bool
deriving DecidableEq, Repr

/-- Go's `sql.NullInt64.Scan`: a nil value gives `{0, false}`; for every other
value `err := convertAssign(&n.Int64, value)` is run, `Valid` becomes `err == nil`
and `err` is returned. An `int64` value is assignable to the destination and is
stored as it is, without error; what `convertAssign` does with the other kinds
of value is the parameter `convertAssign` (from the value and the destination so
far to the destination afterwards and the error). -/
def SqlNullInt64.Scan {F32 F64 T : Type}
    (convertAssign : GoValue F32 F64 T → Int → Int × Option GoError)
    (n : SqlNullInt64) (value : GoValue F32 F64 T) : SqlNullInt64 × Option GoError :=
  match value with
  | .nil => ({ Int64 := 0, Valid := false }, none)
  | .int64 i => ({ Int64 := i, Valid := true }, none)
  | v =>
    let r := convertAssign v n.Int64
    ({ Int64 := r.1, Valid := decide (r.2 = none) }, r.2)

/-! ## bool.go -/

/-- Go's `bool` (named so that the field `Bool` below does not hide it). -/
abbrev GoBool := Bool

/-- The type `Bool` of `bool.go`. -/
structure NullsBool where
  Bool : GoBool
  Valid : GoBool
deriving DecidableEq, Repr

/-- `NewBool` of `bool.go`. -/
def NewBool (b : GoBool) : NullsBool := { Bool := b, Valid := true }

/-- `Bool.UnmarshalJSON` of `bool.go`. -/
def NullsBool.UnmarshalJSON (_ns : NullsBool) (text : GoString) :
    NullsBool × Option GoError :=
  let t := text
  if t = str "true" ∨ t = str "t" then ({ Bool := true, Valid := true }, none)
  else if t = str "false" ∨ t = str "f" then ({ Bool := false, Valid := true }, none)
  else ({ Bool := false, Valid := false }, none)

/-- `Bool.MarshalXMLAttr` of `bool.go`. -/
def NullsBool.MarshalXMLAttr (ns : NullsBool) (name : XmlName) : XmlAttr × Option GoError :=
  if ns.Valid then
    let value := if ns.Bool then str "true" else str "false"
    ({ Name := name, Value := value }, none)
  else (XmlAttr.zero, none)

/-- `Bool.UnmarshalXMLAttr` of `bool.go`. -/
def NullsBool.UnmarshalXMLAttr (ns : NullsBool) (attr : XmlAttr) : NullsBool × Option GoError :=
  if attr.Value = [] then (ns, none)
  else
    let r := ParseBool attr.Value
    if r.2 ≠ none then (ns, r.2)
    else ({ Bool := r.1, Valid := true }, none)

/-- `Bool.Interface` of `bool.go`. -/
def NullsBool.Interface {F32 F64 T : Type} (ns : NullsBool) : GoValue F32 F64 T :=
  if ns.Valid = false then .nil else .bool ns.Bool

/-- `Bool.Value` of `bool.go`. -/
def NullsBool.Value {F32 F64 T : Type} (ns : NullsBool) :
    GoValue F32 F64 T × Option GoError :=
  if ns.Valid = false then (.nil, none) else (.bool ns.Bool, none)

/-- `Bool.MarshalJSON` of `bool.go`. -/
def NullsBool.MarshalJSON (ns : NullsBool) : GoString × Option GoError :=
  if ns.Valid then jsonMarshalBool ns.Bool else jsonMarshalNil

/-- `Bool.UnmarshalText` of `bool.go`. -/
def NullsBool.UnmarshalText (ns : NullsBool) (text : GoString) : NullsBool × Option GoError :=
  ns.UnmarshalJSON text

/-- `Bool.MarshalXML` of `bool.go`. The encoder is a state `e` of type `E`, and
`e.EncodeElement(v, start)` is the parameter `encodeElement`, giving the encoder
afterwards and the error. -/
def NullsBool.MarshalXML {F32 F64 T E : Type}
    (encodeElement : GoValue F32 F64 T → XmlStartElement → E → E × Option GoError)
    (ns : NullsBool) (e : E) (start : XmlStartElement) : E × Option GoError :=
  if ns.Valid then encodeElement (.bool ns.Bool) start e else (e, none)

/-- `Bool.UnmarshalXML` of `bool.go`. The decoder is a value `d` of type `D`, and
`d.DecodeElement(&data, &start)` is the parameter `decodeElement`, giving the text
content read into `data` and the error. -/
def NullsBool.UnmarshalXML {D : Type}
    (decodeElement : D → XmlStartElement → GoString × Option GoError)
    (ns : NullsBool) (d : D) (start : XmlStartElement) : NullsBool × Option GoError :=
  let r := decodeElement d start
  let data := r.1
  if r.2 ≠ none then (ns, r.2)
  else if data = [] then (ns, none)
  else
    let v := ParseBool data
    if v.2 ≠ none then (ns, v.2)
    else ({ Bool := v.1, Valid := true }, none)

/-! ## int.go -/

/-- The type `Int` of `int.go`; the field holds an `int` of the platform. -/
structure NullsInt where
  Int : Int
  Valid : Bool
deriving DecidableEq, Repr

/-- `NewInt` of `int.go`. -/
def NewInt (i : Int) : NullsInt := { Int := i, Valid := true }

/-- `Int.UnmarshalJSON` of `int.go`: the receiver is written only when
`strconv.ParseInt` succeeds, and the returned error is always `nil`. -/
def NullsInt.UnmarshalJSON (p : Platform) (ns : NullsInt) (text : GoString) :
    NullsInt × Option GoError :=
  let r := ParseInt text (IntSize p)
  if r.2 = none then ({ Int := toInt p r.1, Valid := true }, none)
  else (ns, none)

/-- `Int.MarshalXMLAttr` of `int.go`: the second argument of `strconv.FormatInt`,
its base, is `strconv.IntSize`. -/
def NullsInt.MarshalXMLAttr (p : Platform) (ns : NullsInt) (name : XmlName) :
    Outcome (XmlAttr × Option GoError) :=
  if ns.Valid then
    match FormatInt (toInt64 ns.Int) (IntSize p) with
    | .returned value => .returned ({ Name := name, Value := value }, none)
    | .panicked => .panicked
  else .returned (XmlAttr.zero, none)

/-- `Int.Interface` of `int.go`. -/
def NullsInt.Interface {F32 F64 T : Type} (ns : NullsInt) : GoValue F32 F64 T :=
  if ns.Valid = false then .nil else .int ns.Int

/-- `Int.Value` of `int.go`. -/
def NullsInt.Value {F32 F64 T : Type} (ns : NullsInt) : GoValue F32 F64 T × Option GoError :=
  if ns.Valid = false then (.nil, none) else (.int64 (toInt64 ns.Int), none)

/-- `Int.MarshalJSON` of `int.go`. -/
def NullsInt.MarshalJSON (ns : NullsInt) : Outcome (GoString × Option GoError) :=
  if ns.Valid then jsonMarshalInt ns.Int
  else .returned jsonMarshalNil

/-- `Int.UnmarshalText` of `int.go`. -/
def NullsInt.UnmarshalText (p : Platform) (ns : NullsInt) (text : GoString) :
    NullsInt × Option GoError :=
  NullsInt.UnmarshalJSON p ns text

/-- `Int.MarshalXML` of `int.go`. -/
def NullsInt.MarshalXML {F32 F64 T E : Type}
    (encodeElement : GoValue F32 F64 T → XmlStartElement → E → E × Option GoError)
    (ns : NullsInt) (e : E) (start : XmlStartElement) : E × Option GoError :=
  if ns.Valid then encodeElement (.int ns.Int) start e else (e, none)

/-- `Int.UnmarshalXML` of `int.go`. -/
def NullsInt.UnmarshalXML {D : Type} (p : Platform)
    (decodeElement : D → XmlStartElement → GoString × Option GoError)
    (ns : NullsInt) (d : D) (start : XmlStartElement) : NullsInt × Option GoError :=
  let r := decodeElement d start
  let data := r.1
  if r.2 ≠ none then (ns, r.2)
  else if data = [] then (ns, none)
  else if data = str "null" then (ns, none)
  else
    let v := ParseInt data (IntSize p)
    if v.2 ≠ none then (ns, v.2)
    else ({ Int := toInt p v.1, Valid := true }, none)

/-- `Int.UnmarshalXMLAttr` of `int.go`. -/
def NullsInt.UnmarshalXMLAttr (p : Platform) (ns : NullsInt) (attr : XmlAttr) :
    NullsInt × Option GoError :=
  if attr.Value = [] then (ns, none)
  else if attr.Value = str "null" then (ns, none)
  else
    let r := ParseInt attr.Value (IntSize p)
    if r.2 ≠ none then (ns, r.2)
    else ({ Int := toInt p r.1, Valid := true }, none)

/-! ## int32.go -/

/-- The type `Int32` of `int32.go`; the field holds an `int32`. -/
structure NullsInt32 where
  Int32 : Int
  Valid : Bool
deriving DecidableEq, Repr

/-- `NewInt32` of `int32.go`. -/
def NewInt32 (i : Int) : NullsInt32 := { Int32 := i, Valid := true }

/-- `Int32.MarshalJSON` of `int32.go`. -/
def NullsInt32.MarshalJSON (ns : NullsInt32) : Outcome (GoString × Option GoError) :=
  if ns.Valid then jsonMarshalInt ns.Int32
  else .returned jsonMarshalNil

/-- `Int32.UnmarshalJSON` of `int32.go`. -/
def NullsInt32.UnmarshalJSON (ns : NullsInt32) (text : GoString) :
    NullsInt32 × Option GoError :=
  let txt := text
  let ns1 : NullsInt32 := { ns with Valid := true }
  if txt = str "null" then ({ ns1 with Valid := false }, none)
  else
    let r := ParseInt txt 32
    if r.2 ≠ none then ({ ns1 with Valid := false }, r.2)
    else ({ ns1 with Int32 := toInt32 r.1 }, none)

/-- `Int32.MarshalXMLAttr` of `int32.go`: the second argument of
`strconv.FormatInt`, its base, is `strconv.IntSize`. -/
def NullsInt32.MarshalXMLAttr (p : Platform) (ns : NullsInt32) (name : XmlName) :
    Outcome (XmlAttr × Option GoError) :=
  if ns.Valid then
    match FormatInt (toInt64 ns.Int32) (IntSize p) with
    | .returned value => .returned ({ Name := name, Value := value }, none)
    | .panicked => .panicked
  else .returned (XmlAttr.zero, none)

/-- `Int32.UnmarshalXMLAttr` of `int32.go`. -/
def NullsInt32.UnmarshalXMLAttr (p : Platform) (ns : NullsInt32) (attr : XmlAttr) :
    NullsInt32 × Option GoError :=
  if attr.Value = [] then (ns, none)
  else if attr.Value = str "null" then (ns, none)
  else
    let r := ParseInt attr.Value (IntSize p)
    if r.2 ≠ none then (ns, r.2)
    else ({ Int32 := toInt32 r.1, Valid := true }, none)

/-- `Int32.Interface` of `int32.go`. -/
def NullsInt32.Interface {F32 F64 T : Type} (ns : NullsInt32) : GoValue F32 F64 T :=
  if ns.Valid = false then .nil else .int32 ns.Int32

/-- `Int32.Scan` of `int32.go`: a `sql.NullInt64` scans the value, and its
`Int64` is converted by `int32(n.Int64)`. -/
def NullsInt32.Scan {F32 F64 T : Type}
    (convertAssign : GoValue F32 F64 T → Int → Int × Option GoError)
    (ns : NullsInt32) (value : GoValue F32 F64 T) : NullsInt32 × Option GoError :=
  let n : SqlNullInt64 := { Int64 := toInt64 ns.Int32, Valid := false }
  let r := SqlNullInt64.Scan convertAssign n value
  ({ Int32 := toInt32 r.1.Int64, Valid := r.1.Valid }, r.2)

/-- `Int32.Value` of `int32.go`. -/
def NullsInt32.Value {F32 F64 T : Type} (ns : NullsInt32) :
    GoValue F32 F64 T × Option GoError :=
  if ns.Valid = false then (.nil, none) else (.int64 (toInt64 ns.Int32), none)

/-- `Int32.UnmarshalText` of `int32.go`. -/
def NullsInt32.UnmarshalText (ns : NullsInt32) (text : GoString) :
    NullsInt32 × Option GoError :=
  ns.UnmarshalJSON text

/-- `Int32.MarshalXML` of `int32.go`. -/
def NullsInt32.MarshalXML {F32 F64 T E : Type}
    (encodeElement : GoValue F32 F64 T → XmlStartElement → E → E × Option GoError)
    (ns : NullsInt32) (e : E) (start : XmlStartElement) : E × Option GoError :=
  if ns.Valid then encodeElement (.int32 ns.Int32) start e else (e, none)

/-- `Int32.UnmarshalXML` of `int32.go`. -/
def NullsInt32.UnmarshalXML {D : Type} (p : Platform)
    (decodeElement : D → XmlStartElement → GoString × Option GoError)
    (ns : NullsInt32) (d : D) (start : XmlStartElement) : NullsInt32 × Option GoError :=
  let r := decodeElement d start
  let data := r.1
  if r.2 ≠ none then (ns, r.2)
  else if data = [] then (ns, none)
  else if data = str "null" then (ns, none)
  else
    let v := ParseInt data (IntSize p)
    if v.2 ≠ none then (ns, v.2)
    else ({ Int32 := toInt32 v.1, Valid := true }, none)

/-! ## int64.go -/

/-- The type `Int64` of `int64.go`; the field holds an `int64`. -/
structure NullsInt64 where
  Int64 : Int
  Valid : Bool
deriving DecidableEq, Repr

/-- `Int64.UnmarshalJSON` of `int64.go`. -/
def NullsInt64.UnmarshalJSON (ns : NullsInt64) (text : GoString) :
    NullsInt64 × Option GoError :=
  let t := text
  let ns1 : NullsInt64 := { ns with Valid := true }
  if t = str "null" then ({ ns1 with Valid := false }, none)
  else
    let r := ParseInt t 64
    if r.2 ≠ none then ({ ns1 with Valid := false }, r.2)
    else ({ ns1 with Int64 := r.1 }, none)

/-- `Int64.Interface` of `int64.go`. -/
def NullsInt64.Interface {F32 F64 T : Type} (ns : NullsInt64) : GoValue F32 F64 T :=
  if ns.Valid = false then .nil else .int64 ns.Int64

/-- `NewInt64` of `int64.go`. -/
def NewInt64 (i : Int) : NullsInt64 := { Int64 := i, Valid := true }

/-- `Int64.Value` of `int64.go`. -/
def NullsInt64.Value {F32 F64 T : Type} (ns : NullsInt64) :
    GoValue F32 F64 T × Option GoError :=
  if ns.Valid = false then (.nil, none) else (.int64 ns.Int64, none)

/-- `Int64.MarshalJSON` of `int64.go`. -/
def NullsInt64.MarshalJSON (ns : NullsInt64) : Outcome (GoString × Option GoError) :=
  if ns.Valid then jsonMarshalInt ns.Int64
  else .returned jsonMarshalNil

/-- `Int64.UnmarshalText` of `int64.go`. -/
def NullsInt64.UnmarshalText (ns : NullsInt64) (text : GoString) :
    NullsInt64 × Option GoError :=
  ns.UnmarshalJSON text

/-- `Int64.MarshalXML` of `int64.go`. -/
def NullsInt64.MarshalXML {F32 F64 T E : Type}
    (encodeElement : GoValue F32 F64 T → XmlStartElement → E → E × Option GoError)
    (ns : NullsInt64) (e : E) (start : XmlStartElement) : E × Option GoError :=
  if ns.Valid then encodeElement (.int64 ns.Int64) start e else (e, none)

/-- `Int64.UnmarshalXML` of `int64.go`. -/
def NullsInt64.UnmarshalXML {D : Type}
    (decodeElement : D → XmlStartElement → GoString × Option GoError)
    (ns : NullsInt64) (d : D) (start : XmlStartElement) : NullsInt64 × Option GoError :=
  let r := decodeElement d start
  let data := r.1
  if r.2 ≠ none then (ns, r.2)
  else if data = [] then (ns, none)
  else if data = str "null" then (ns, none)
  else
    let v := ParseInt data 64
    if v.2 ≠ none then (ns, v.2)
    else ({ Int64 := v.1, Valid := true }, none)

/-- `Int64.MarshalXMLAttr` of `int64.go`. -/
def NullsInt64.MarshalXMLAttr (ns : NullsInt64) (name : XmlName) :
    Outcome (XmlAttr × Option GoError) :=
  if ns.Valid then
    match FormatInt (toInt64 ns.Int64) 10 with
    | .returned value => .returned ({ Name := name, Value := value }, none)
    | .panicked => .panicked
  else .returned (XmlAttr.zero, none)

/-- `Int64.UnmarshalXMLAttr` of `int64.go`. -/
def NullsInt64.UnmarshalXMLAttr (ns : NullsInt64) (attr : XmlAttr) :
    NullsInt64 × Option GoError :=
  if attr.Value = [] then (ns, none)
  else if attr.Value = str "null" then (ns, none)
  else
    let r := ParseInt attr.Value 64
    if r.2 ≠ none then (ns, r.2)
    else ({ Int64 := r.1, Valid := true }, none)

/-! ## uint32.go -/

/-- The type `UInt32` of `uint32.go`; the field holds a `uint32`. -/
structure NullsUInt32 where
  UInt32 : Nat
  Valid : Bool
deriving DecidableEq, Repr

/-- `NewUInt32` of `uint32.go`. -/
def NewUInt32 (i : Nat) : NullsUInt32 := { UInt32 := i, Valid := true }

/-- `UInt32.MarshalJSON` of `uint32.go`. -/
def NullsUInt32.MarshalJSON (ns : NullsUInt32) : Outcome (GoString × Option GoError) :=
  if ns.Valid then jsonMarshalUint ns.UInt32
  else .returned jsonMarshalNil

/-- `UInt32.UnmarshalJSON` of `uint32.go`: the text is parsed by
`strconv.ParseInt(txt, 10, 32)`, a signed 32-bit parse, and then converted. -/
def NullsUInt32.UnmarshalJSON (ns : NullsUInt32) (text : GoString) :
    NullsUInt32 × Option GoError :=
  let txt := text
  let ns1 : NullsUInt32 := { ns with Valid := true }
  if txt = str "null" then ({ ns1 with Valid := false }, none)
  else
    let r := ParseInt txt 32
    if r.2 ≠ none then ({ ns1 with Valid := false }, r.2)
    else ({ ns1 with UInt32 := toUint32 r.1 }, none)

/-- `UInt32.UnmarshalXMLAttr` of `uint32.go`. -/
def NullsUInt32.UnmarshalXMLAttr (p : Platform) (ns : NullsUInt32) (attr : XmlAttr) :
    NullsUInt32 × Option GoError :=
  if attr.Value = [] then (ns, none)
  else if attr.Value = str "null" then (ns, none)
  else
    let r := ParseInt attr.Value (IntSize p)
    if r.2 ≠ none then (ns, r.2)
    else ({ UInt32 := toUint32 r.1, Valid := true }, none)

/-- `UInt32.Interface` of `uint32.go`. -/
def NullsUInt32.Interface {F32 F64 T : Type} (ns : NullsUInt32) : GoValue F32 F64 T :=
  if ns.Valid = false then .nil else .uint32 ns.UInt32

/-- `UInt32.Value` of `uint32.go`. -/
def NullsUInt32.Value {F32 F64 T : Type} (ns : NullsUInt32) :
    GoValue F32 F64 T × Option GoError :=
  if ns.Valid = false then (.nil, none) else (.int64 (toInt64 (ns.UInt32 : Int)), none)

/-- `UInt32.UnmarshalText` of `uint32.go`. -/
def NullsUInt32.UnmarshalText (ns : NullsUInt32) (text : GoString) :
    NullsUInt32 × Option GoError :=
  ns.UnmarshalJSON text

/-- `UInt32.MarshalXML` of `uint32.go`. -/
def NullsUInt32.MarshalXML {F32 F64 T E : Type}
    (encodeElement : GoValue F32 F64 T → XmlStartElement → E → E × Option GoError)
    (ns : NullsUInt32) (e : E) (start : XmlStartElement) : E × Option GoError :=
  if ns.Valid then encodeElement (.uint32 ns.UInt32) start e else (e, none)

/-- `UInt32.UnmarshalXML` of `uint32.go`. -/
def NullsUInt32.UnmarshalXML {D : Type} (p : Platform)
    (decodeElement : D → XmlStartElement → GoString × Option GoError)
    (ns : NullsUInt32) (d : D) (start : XmlStartElement) : NullsUInt32 × Option GoError :=
  let r := decodeElement d start
  let data := r.1
  if r.2 ≠ none then (ns, r.2)
  else if data = [] then (ns, none)
  else if data = str "null" then (ns, none)
  else
    let v := ParseInt data (IntSize p)
    if v.2 ≠ none then (ns, v.2)
    else ({ UInt32 := toUint32 v.1, Valid := true }, none)

/-- `UInt32.MarshalXMLAttr` of `uint32.go`. -/
def NullsUInt32.MarshalXMLAttr (ns : NullsUInt32) (name : XmlName) :
    Outcome (XmlAttr × Option GoError) :=
  if ns.Valid then
    match FormatInt (toInt64 (ns.UInt32 : Int)) 10 with
    | .returned value => .returned ({ Name := name, Value := value }, none)
    | .panicked => .panicked
  else .returned (XmlAttr.zero, none)

/-! ## float32.go -/

/-- The type `Float32` of `float32.go`, over a type `F` of `float32` values. -/
structure NullsFloat32 (F : Type) where
  Float32 : F
  Valid : Bool

/-- `Float32.UnmarshalJSON` of `float32.go`. The call `strconv.ParseFloat(txt, 32)`
followed by the conversion `float32(i)` is the parameter `parseFloat32`. -/
def NullsFloat32.UnmarshalJSON {F : Type} (parseFloat32 : GoString → F × Option GoError)
    (ns : NullsFloat32 F) (text : GoString) : NullsFloat32 F × Option GoError :=
  let txt := text
  let ns1 : NullsFloat32 F := { ns with Valid := true }
  if txt = str "null" then ({ ns1 with Valid := false }, none)
  else
    let r := parseFloat32 txt
    if r.2 ≠ none then ({ ns1 with Valid := false }, r.2)
    else ({ ns1 with Float32 := r.1 }, none)

/-- `Float32.Interface` of `float32.go`. -/
def NullsFloat32.Interface {F F64 T : Type} (ns : NullsFloat32 F) : GoValue F F64 T :=
  if ns.Valid = false then .nil else .float32 ns.Float32

/-- `Float32.Value` of `float32.go`. The conversion `float64(ns.Float32)` is the
parameter `toFloat64`. -/
def NullsFloat32.Value {F F64 T : Type} (toFloat64 : F → F64) (ns : NullsFloat32 F) :
    GoValue F F64 T × Option GoError :=
  if ns.Valid = false then (.nil, none) else (.float64 (toFloat64 ns.Float32), none)

/-- `Float32.MarshalJSON` of `float32.go`. The call `json.Marshal(ns.Float32)` is
the parameter `jsonMarshalFloat32`. -/
def NullsFloat32.MarshalJSON {F : Type} (jsonMarshalFloat32 : F → GoString × Option GoError)
    (ns : NullsFloat32 F) : GoString × Option GoError :=
  if ns.Valid then jsonMarshalFloat32 ns.Float32 else jsonMarshalNil

/-- `Float32.UnmarshalText` of `float32.go`. -/
def NullsFloat32.UnmarshalText {F : Type} (parseFloat32 : GoString → F × Option GoError)
    (ns : NullsFloat32 F) (text : GoString) : NullsFloat32 F × Option GoError :=
  NullsFloat32.UnmarshalJSON parseFloat32 ns text

/-- `Float32.MarshalXML` of `float32.go`. -/
def NullsFloat32.MarshalXML {F F64 T E : Type}
    (encodeElement : GoValue F F64 T → XmlStartElement → E → E × Option GoError)
    (ns : NullsFloat32 F) (e : E) (start : XmlStartElement) : E × Option GoError :=
  if ns.Valid then encodeElement (.float32 ns.Float32) start e else (e, none)

/-- `Float32.UnmarshalXML` of `float32.go`. -/
def NullsFloat32.UnmarshalXML {F D : Type} (parseFloat32 : GoString → F × Option GoError)
    (decodeElement : D → XmlStartElement → GoString × Option GoError)
    (ns : NullsFloat32 F) (d : D) (start : XmlStartElement) :
    NullsFloat32 F × Option GoError :=
  let r := decodeElement d start
  let data := r.1
  if r.2 ≠ none then (ns, r.2)
  else if data = [] then (ns, none)
  else if data = str "null" then (ns, none)
  else
    let v := parseFloat32 data
    if v.2 ≠ none then (ns, v.2)
    else ({ Float32 := v.1, Valid := true }, none)

/-- `Float32.MarshalXMLAttr` of `float32.go`. The call
`strconv.FormatFloat(float64(ns.Float32), 'f', -1, 32)` is the parameter
`formatFloat32`. -/
def NullsFloat32.MarshalXMLAttr {F : Type} (formatFloat32 : F → GoString)
    (ns : NullsFloat32 F) (name : XmlName) : XmlAttr × Option GoError :=
  if ns.Valid then ({ Name := name, Value := formatFloat32 ns.Float32 }, none)
  else (XmlAttr.zero, none)

/-- `Float32.UnmarshalXMLAttr` of `float32.go`. -/
def NullsFloat32.UnmarshalXMLAttr {F : Type} (parseFloat32 : GoString → F × Option GoError)
    (ns : NullsFloat32 F) (attr : XmlAttr) : NullsFloat32 F × Option GoError :=
  if attr.Value = [] then (ns, none)
  else if attr.Value = str "null" then (ns, none)
  else
    let r := parseFloat32 attr.Value
    if r.2 ≠ none then (ns, r.2)
    else ({ Float32 := r.1, Valid := true }, none)

/-! ## string.go -/

/-- The type `String` of `string.go`. -/
structure NullsString where
  String : GoString
  Valid : Bool
deriving DecidableEq, Repr

/-- `NewString` of `string.go`. -/
def NewString (s : GoString) : NullsString := { String := s, Valid := true }

/-- `String.UnmarshalJSON` of `string.go`. The call `json.Unmarshal(text, &ns.String)`
is the parameter `jsonUnmarshal`: from the text and the string stored so far it
gives the string stored afterwards and the error. -/
def NullsString.UnmarshalJSON (jsonUnmarshal : GoString → GoString → GoString × Option GoError)
    (ns : NullsString) (text : GoString) : NullsString × Option GoError :=
  let ns1 : NullsString := { ns with Valid := false }
  if text = str "null" then (ns1, none)
  else
    let r := jsonUnmarshal text ns1.String
    if r.2 = none then ({ String := r.1, Valid := true }, none)
    else ({ ns1 with String := r.1 }, none)

/-- `String.MarshalXMLAttr` of `string.go`. -/
def NullsString.MarshalXMLAttr (ns : NullsString) (name : XmlName) :
    XmlAttr × Option GoError :=
  if ns.Valid then ({ Name := name, Value := ns.String }, none)
  else (XmlAttr.zero, none)

/-- `String.UnmarshalXMLAttr` of `string.go`. -/
def NullsString.UnmarshalXMLAttr (ns : NullsString) (attr : XmlAttr) :
    NullsString × Option GoError :=
  if attr.Value = [] then (ns, none)
  else if attr.Value = str "null" then (ns, none)
  else ({ String := attr.Value, Valid := true }, none)

/-- `String.Interface` of `string.go`. -/
def NullsString.Interface {F32 F64 T : Type} (ns : NullsString) : GoValue F32 F64 T :=
  if ns.Valid = false then .nil else .string ns.String

/-- `String.Value` of `string.go`. -/
def NullsString.Value {F32 F64 T : Type} (ns : NullsString) :
    GoValue F32 F64 T × Option GoError :=
  if ns.Valid = false then (.nil, none) else (.string ns.String, none)

/-- `String.MarshalJSON` of `string.go`. The call `json.Marshal(ns.String)` is the
parameter `jsonMarshalString`. -/
def NullsString.MarshalJSON (jsonMarshalString : GoString → GoString × Option GoError)
    (ns : NullsString) : GoString × Option GoError :=
  if ns.Valid then jsonMarshalString ns.String else jsonMarshalNil

/-- `String.UnmarshalText` of `string.go`: the text is stored as it is, without
a call of `json.Unmarshal`. -/
def NullsString.UnmarshalText (ns : NullsString) (text : GoString) :
    NullsString × Option GoError :=
  let ns1 : NullsString := { ns with Valid := false }
  let t := text
  if t = str "null" then (ns1, none)
  else ({ String := t, Valid := true }, none)

/-- `String.MarshalXML` of `string.go`. -/
def NullsString.MarshalXML {F32 F64 T E : Type}
    (encodeElement : GoValue F32 F64 T → XmlStartElement → E → E × Option GoError)
    (ns : NullsString) (e : E) (start : XmlStartElement) : E × Option GoError :=
  if ns.Valid then encodeElement (.string ns.String) start e else (e, none)

/-- `String.UnmarshalXML` of `string.go`. -/
def NullsString.UnmarshalXML {D : Type}
    (decodeElement : D → XmlStartElement → GoString × Option GoError)
    (ns : NullsString) (d : D) (start : XmlStartElement) : NullsString × Option GoError :=
  let r := decodeElement d start
  let data := r.1
  if r.2 ≠ none then (ns, r.2)
  else if data = [] then (ns, none)
  else if data = str "null" then (ns, none)
  else ({ String := data, Valid := true }, none)

/-! ## time.go -/

/-- The type `Time` of `time.go`, over a type `T` of `time.Time` values. -/
structure NullsTime (T : Type) where
  Time : T
  Valid : Bool

/-- `Time.UnmarshalJSON` of `time.go`. The call `t.UnmarshalJSON(text)` on a fresh
`time.Time{}` is the parameter `timeUnmarshalJSON`. -/
def NullsTime.UnmarshalJSON {T : Type} (timeUnmarshalJSON : GoString → T × Option GoError)
    (ns : NullsTime T) (text : GoString) : NullsTime T × Option GoError :=
  let ns1 : NullsTime T := { ns with Valid := false }
  let txt := text
  if txt = str "null" ∨ txt = [] then (ns1, none)
  else
    let r := timeUnmarshalJSON text
    if r.2 = none then ({ Time := r.1, Valid := true }, r.2)
    else (ns1, r.2)

/-- `Time.Interface` of `time.go`. -/
def NullsTime.Interface {F32 F64 T : Type} (ns : NullsTime T) : GoValue F32 F64 T :=
  if ns.Valid = false then .nil else .time ns.Time

/-- `Time.Scan` of `time.go`: the type assertion `value.(time.Time)` in its
two-result form gives the timestamp and `true` when the value holds a
`time.Time`, and the zero timestamp `time.Time{}` (the parameter `zeroTime`) and
`false` otherwise. -/
def NullsTime.Scan {F32 F64 T : Type} (zeroTime : T) (_ns : NullsTime T)
    (value : GoValue F32 F64 T) : NullsTime T × Option GoError :=
  match value with
  | .time t => ({ Time := t, Valid := true }, none)
  | _ => ({ Time := zeroTime, Valid := false }, none)

/-- `Time.Value` of `time.go`. -/
def NullsTime.Value {F32 F64 T : Type} (ns : NullsTime T) :
    GoValue F32 F64 T × Option GoError :=
  if ns.Valid = false then (.nil, none) else (.time ns.Time, none)

/-- `Time.MarshalJSON` of `time.go`. The call `json.Marshal(ns.Time)` is the
parameter `jsonMarshalTime`. -/
def NullsTime.MarshalJSON {T : Type} (jsonMarshalTime : T → GoString × Option GoError)
    (ns : NullsTime T) : GoString × Option GoError :=
  if ns.Valid then jsonMarshalTime ns.Time else jsonMarshalNil

/-- `Time.UnmarshalText` of `time.go`. -/
def NullsTime.UnmarshalText {T : Type} (timeUnmarshalJSON : GoString → T × Option GoError)
    (ns : NullsTime T) (text : GoString) : NullsTime T × Option GoError :=
  NullsTime.UnmarshalJSON timeUnmarshalJSON ns text

/-- `Time.MarshalXML` of `time.go`. -/
def NullsTime.MarshalXML {F32 F64 T E : Type}
    (encodeElement : GoValue F32 F64 T → XmlStartElement → E → E × Option GoError)
    (ns : NullsTime T) (e : E) (start : XmlStartElement) : E × Option GoError :=
  if ns.Valid then encodeElement (.time ns.Time) start e else (e, none)

/-- `Time.UnmarshalXML` of `time.go`: the error of `t.UnmarshalJSON` is tested
against `nil` and then dropped; the function ends with `return nil`. -/
def NullsTime.UnmarshalXML {T D : Type} (timeUnmarshalJSON : GoString → T × Option GoError)
    (decodeElement : D → XmlStartElement → GoString × Option GoError)
    (ns : NullsTime T) (d : D) (start : XmlStartElement) : NullsTime T × Option GoError :=
  let r := decodeElement d start
  let data := r.1
  if r.2 ≠ none then (ns, r.2)
  else if data = [] then (ns, none)
  else if data = str "null" then (ns, none)
  else
    let v := timeUnmarshalJSON data
    if v.2 = none then ({ Time := v.1, Valid := true }, none)
    else (ns, none)

/-- `Time.MarshalXMLAttr` of `time.go`. The call `ns.Time.String()` is the
parameter `timeString`. -/
def NullsTime.MarshalXMLAttr {T : Type} (timeString : T → GoString)
    (ns : NullsTime T) (name : XmlName) : XmlAttr × Option GoError :=
  if ns.Valid then ({ Name := name, Value := timeString ns.Time }, none)
  else (XmlAttr.zero, none)

/-- `Time.UnmarshalXMLAttr` of `time.go`: the error of `t.UnmarshalJSON` is tested
against `nil` and then dropped; the function ends with `return nil`. -/
def NullsTime.UnmarshalXMLAttr {T : Type} (timeUnmarshalJSON : GoString → T × Option GoError)
    (ns : NullsTime T) (attr : XmlAttr) : NullsTime T × Option GoError :=
  if attr.Value = [] then (ns, none)
  else if attr.Value = str "null" then (ns, none)
  else
    let v := timeUnmarshalJSON attr.Value
    if v.2 = none then ({ Time := v.1, Valid := true }, none)
    else (ns, none)

/-- The integer `n` reduced to 32-bit two's complement, as the specification
words it: `n mod 2^32`, read as a signed number. -/
def twosComplement32 (n : Int) : Int :=
  let m := n % 2 ^ 32
  if m < 2 ^ 31 then m else m - 2 ^ 32

/-! ## Decimal numerals, as the specification words them -/

/-- A decimal digit, `'0'` to `'9'`. -/
def isDigit (c : Fin 256) : Bool := decide (48 ≤ c.val ∧ c.val ≤ 57)

/-- The number written by a run of decimal digits, continuing from `a`, in
unbounded arithmetic. -/
def decimalFrom (a : Nat) (ds : GoString) : Nat :=
  ds.foldl (fun acc c => 10 * acc + (c.val - 48)) a

/-- The number written by a run of decimal digits. -/
def decimalValue (ds : GoString) : Nat := decimalFrom 0 ds

/-- A non-empty run of decimal digits. -/
def isDecimal (ds : GoString) : Bool := decide (ds ≠ []) && ds.all isDigit

/-- The integer a text denotes as a base-10 signed integer numeral: an optional
sign `+` or `-` followed by one or more decimal digits. `none` when the text is
not such a numeral. -/
def numeralValue (t : GoString) : Option Int :=
  match t with
  | [] => none
  | c :: rest =>
    if c.val = 45 then (if isDecimal rest then some (-(decimalValue rest : Int)) else none)
    else if c.val = 43 then (if isDecimal rest then some (decimalValue rest : Int) else none)
    else if isDecimal (c :: rest) then some (decimalValue (c :: rest) : Int) else none

/-- The text is a base-10 signed integer numeral whose value lies within
`[-2^(bits-1), 2^(bits-1)-1]`, the range of a signed integer of `bits` bits. -/
def isNumeralWithin (bits : Nat) (t : GoString) : Bool :=
  match numeralValue t with
  | some n => decide (-(2 : Int) ^ (bits - 1) ≤ n ∧ n ≤ 2 ^ (bits - 1) - 1)
  | none => false

/-! ## Lemmas on the parsing loop -/

theorem decimalFrom_cons (a : Nat) (c : Fin 256) (cs : GoString) :
    decimalFrom a (c :: cs) = decimalFrom (10 * a + (c.val - 48)) cs := rfl

theorem le_decimalFrom (cs : GoString) : ∀ a : Nat, a ≤ decimalFrom a cs := by
  induction cs with
  | nil => intro a; exact Nat.le_refl a
  | cons c cs ih =>
    intro a
    rw [decimalFrom_cons]
    have := ih (10 * a + (c.val - 48))
    omega

/-- Digits whose value stays below `maxVal` are read by the loop without error. -/
theorem parseUintLoop_of_digits (maxVal : Nat) (hmax : maxVal < 2 ^ 64) (cs : GoString) :
    ∀ n : Nat, cs.all isDigit = true → decimalFrom n cs ≤ maxVal →
      parseUintLoop maxVal n cs = (decimalFrom n cs, none) := by
  induction cs with
  | nil => intro n _ _; rfl
  | cons c cs ih =>
    intro n hall hle
    rw [List.all_cons, Bool.and_eq_true] at hall
    obtain ⟨hc, hcs⟩ := hall
    have hc2 : 48 ≤ c.val ∧ c.val ≤ 57 := by simpa [isDigit] using hc
    rw [decimalFrom_cons] at hle ⊢
    have hmono := le_decimalFrom cs (10 * n + (c.val - 48))
    have h10 : n * 10 % 2 ^ 64 = n * 10 := Nat.mod_eq_of_lt (by omega)
    have h1 : (n * 10 + (c.val - 48)) % 2 ^ 64 = 10 * n + (c.val - 48) := by
      rw [Nat.mod_eq_of_lt (by omega)]; omega
    have hcut : ¬ n ≥ (2 ^ 64 - 1) / 10 + 1 := by omega
    simp only [parseUintLoop, hc2, and_self, if_true, hcut, if_false, h10, h1]
    rw [if_neg (by omega)]
    exact ih _ hcs hle

/-- When the loop reports no error, the text was a run of digits whose value
is at most `maxVal`, and that value is the result. -/
theorem digits_of_parseUintLoop (maxVal : Nat) (cs : GoString) :
    ∀ n : Nat, n ≤ maxVal → (parseUintLoop maxVal n cs).2 = none →
      cs.all isDigit = true ∧ decimalFrom n cs ≤ maxVal ∧
        parseUintLoop maxVal n cs = (decimalFrom n cs, none) := by
  induction cs with
  | nil => intro n hn _; exact ⟨rfl, hn, rfl⟩
  | cons c cs ih =>
    intro n hn h
    rw [decimalFrom_cons]
    unfold parseUintLoop at h ⊢
    by_cases hc : 48 ≤ c.val ∧ c.val ≤ 57
    · rw [if_pos hc] at h ⊢
      by_cases hcut : n ≥ (2 ^ 64 - 1) / 10 + 1
      · rw [if_pos hcut] at h; exact absurd h (by simp)
      · rw [if_neg hcut] at h ⊢
        have h10 : n * 10 % 2 ^ 64 = n * 10 := Nat.mod_eq_of_lt (by omega)
        simp only [h10] at h ⊢
        by_cases hov : (n * 10 + (c.val - 48)) % 2 ^ 64 < n * 10
            ∨ (n * 10 + (c.val - 48)) % 2 ^ 64 > maxVal
        · rw [if_pos hov] at h; exact absurd h (by simp)
        · rw [if_neg hov] at h ⊢
          have h1 : (n * 10 + (c.val - 48)) % 2 ^ 64 = 10 * n + (c.val - 48) := by
            have hlt : n * 10 + (c.val - 48) < 2 ^ 64 := by
              by_contra hge
              have := Nat.mod_lt (n * 10 + (c.val - 48)) (show 0 < 2 ^ 64 by norm_num)
              have hc3 := c.isLt
              omega
            rw [Nat.mod_eq_of_lt hlt]; omega
          rw [h1] at h hov ⊢
          obtain ⟨hall, hle, heq⟩ := ih _ (by omega) h
          refine ⟨?_, hle, heq⟩
          rw [List.all_cons, hall, Bool.and_true]
          simpa [isDigit] using hc
    · rw [if_neg hc] at h; exact absurd h (by simp)

/-- An error of the loop is a range error next to `maxVal`, or a syntax error
next to 0. -/
theorem parseUintLoop_error (maxVal : Nat) (cs : GoString) :
    ∀ n : Nat, (parseUintLoop maxVal n cs).2 ≠ none →
      parseUintLoop maxVal n cs = (maxVal, some .ErrRange)
        ∨ parseUintLoop maxVal n cs = (0, some .ErrSyntax) := by
  induction cs with
  | nil => intro n h; exact absurd rfl h
  | cons c cs ih =>
    intro n h
    unfold parseUintLoop at h ⊢
    by_cases hc : 48 ≤ c.val ∧ c.val ≤ 57
    · rw [if_pos hc] at h ⊢
      by_cases hcut : n ≥ (2 ^ 64 - 1) / 10 + 1
      · rw [if_pos hcut]; exact Or.inl rfl
      · rw [if_neg hcut] at h ⊢
        by_cases hov : (n * 10 % 2 ^ 64 + (c.val - 48)) % 2 ^ 64 < n * 10 % 2 ^ 64
            ∨ (n * 10 % 2 ^ 64 + (c.val - 48)) % 2 ^ 64 > maxVal
        · simp only [hov, if_true]; exact Or.inl trivial
        · simp only [hov, if_false] at h ⊢
          exact ih _ h
    · rw [if_neg hc]; exact Or.inr rfl

theorem toInt64_of_range (i : Int) (h1 : -(2 : Int) ^ 63 ≤ i) (h2 : i < 2 ^ 63) :
    toInt64 i = i := by
  unfold toInt64; omega

theorem toInt32_of_range (i : Int) (h1 : -(2 : Int) ^ 31 ≤ i) (h2 : i < 2 ^ 31) :
    toInt32 i = i := by
  unfold toInt32; omega

theorem isDecimal_iff (s : GoString) :
    isDecimal s = true ↔ s ≠ [] ∧ s.all isDigit = true := by
  simp [isDecimal]

/-- `ParseUint` reads a non-empty run of digits whose value fits the size. -/
theorem ParseUint_of_decimal (s : GoString) (b : Nat) (hb : b = 32 ∨ b = 64)
    (hs : isDecimal s = true) (hle : decimalValue s ≤ 2 ^ b - 1) :
    ParseUint s b = (decimalValue s, none) := by
  obtain ⟨hne, hall⟩ := (isDecimal_iff s).1 hs
  have hb0 : ¬ (b = 0 ∨ 64 < b) := by omega
  unfold ParseUint
  rw [if_neg hne, if_neg hb0]
  apply parseUintLoop_of_digits _ _ s 0 hall hle
  rcases hb with rfl | rfl <;> norm_num

/-- When `ParseUint` reports no error, the text is a non-empty run of digits
whose value fits the size, and that value is the result. -/
theorem decimal_of_ParseUint (s : GoString) (b : Nat) (h : (ParseUint s b).2 = none) :
    isDecimal s = true ∧ decimalValue s ≤ 2 ^ b - 1 ∧ ParseUint s b = (decimalValue s, none) := by
  unfold ParseUint at h ⊢
  by_cases hne : s = []
  · rw [if_pos hne] at h; exact absurd h (by simp)
  · rw [if_neg hne] at h ⊢
    by_cases hb0 : b = 0 ∨ 64 < b
    · rw [if_pos hb0] at h; exact absurd h (by simp)
    · rw [if_neg hb0] at h ⊢
      obtain ⟨hall, hle, heq⟩ := digits_of_parseUintLoop (2 ^ b - 1) s 0 (Nat.zero_le _) h
      exact ⟨(isDecimal_iff s).2 ⟨hne, hall⟩, hle, heq⟩

/-- An error of `ParseUint` at size 32 or 64 is a range error next to the
largest value of the size, or a syntax error. -/
theorem ParseUint_error (s : GoString) (b : Nat) (hb : b = 32 ∨ b = 64)
    (h : (ParseUint s b).2 ≠ none) :
    ParseUint s b = (2 ^ b - 1, some .ErrRange) ∨ ParseUint s b = (0, some .ErrSyntax) := by
  have hb0 : ¬ (b = 0 ∨ 64 < b) := by omega
  unfold ParseUint at h ⊢
  by_cases hne : s = []
  · rw [if_pos hne]; exact Or.inr rfl
  · rw [if_neg hne, if_neg hb0] at h ⊢
    exact parseUintLoop_error _ s 0 h

/-- The signed check accepts a magnitude within the signed range. -/
theorem parseIntSigned_ok (neg : Bool) (b : Nat) (hb : b = 32 ∨ b = 64) (un : Nat)
    (hr : if neg then un ≤ 2 ^ (b - 1) else un < 2 ^ (b - 1)) :
    parseIntSigned neg b (un, none) = (if neg then -(un : Int) else (un : Int), none) := by
  unfold parseIntSigned
  rcases hb with rfl | rfl <;> cases neg <;> simp at hr ⊢ <;> unfold toInt64 <;>
    rw [if_neg (by omega)] <;> simp only [Prod.mk.injEq, and_true] <;> omega

/-- When the signed check reports no error, `ParseUint` reported none and the
magnitude is within the signed range. -/
theorem parseIntSigned_none (neg : Bool) (b : Nat) (hb : b = 32 ∨ b = 64)
    (r : Nat × Option GoError) (hr : r = (2 ^ b - 1, some .ErrRange) ∨ r.2 ≠ some .ErrRange)
    (h : (parseIntSigned neg b r).2 = none) :
    r.2 = none ∧ (if neg then r.1 ≤ 2 ^ (b - 1) else r.1 < 2 ^ (b - 1)) := by
  obtain ⟨un, err⟩ := r
  unfold parseIntSigned at h
  by_cases he : err ≠ none ∧ err ≠ some .ErrRange
  · rw [if_pos he] at h; exact absurd h he.1
  · rw [if_neg he] at h
    simp only at h hr
    by_cases h1 : neg = false ∧ un ≥ 2 ^ (b - 1)
    · rw [if_pos h1] at h; exact absurd h (by simp)
    · rw [if_neg h1] at h
      by_cases h2 : neg = true ∧ un > 2 ^ (b - 1)
      · rw [if_pos h2] at h; exact absurd h (by simp)
      · have hrange : if neg then un ≤ 2 ^ (b - 1) else un < 2 ^ (b - 1) := by
          cases neg <;> simp at h1 h2 ⊢ <;> omega
        refine ⟨?_, hrange⟩
        by_contra hne
        have herr : err = some .ErrRange := by
          by_contra hx; exact he ⟨hne, hx⟩
        rcases hr with hr | hr
        · have hun : un = 2 ^ b - 1 := (Prod.mk.inj hr).1
          rcases hb with rfl | rfl <;> cases neg <;> simp at hrange <;> omega
        · exact hr herr

theorem ParseInt_cons (c : Fin 256) (rest : GoString) (b : Nat) :
    ParseInt (c :: rest) b = parseIntSigned (decide (c.val = 45)) b
      (ParseUint (if c.val = 43 ∨ c.val = 45 then rest else c :: rest) b) := rfl

theorem numeralValue_cons (c : Fin 256) (rest : GoString) :
    numeralValue (c :: rest) =
      if c.val = 45 then (if isDecimal rest then some (-(decimalValue rest : Int)) else none)
      else if c.val = 43 then (if isDecimal rest then some (decimalValue rest : Int) else none)
      else if isDecimal (c :: rest) then some (decimalValue (c :: rest) : Int) else none := rfl

/-- `ParseInt` at size 32 or 64 accepts every base-10 signed integer numeral
whose value fits the size, and returns its value. -/
theorem ParseInt_of_numeral (s : GoString) (b : Nat) (hb : b = 32 ∨ b = 64) (n : Int)
    (hn : numeralValue s = some n) (h1 : -(2 : Int) ^ (b - 1) ≤ n)
    (h2 : n ≤ 2 ^ (b - 1) - 1) : ParseInt s b = (n, none) := by
  cases s with
  | nil => simp [numeralValue] at hn
  | cons c rest =>
    rw [ParseInt_cons]
    rw [numeralValue_cons] at hn
    by_cases hm : c.val = 45
    · rw [if_pos hm] at hn
      by_cases hd : isDecimal rest = true
      · rw [if_pos hd] at hn
        have hn2 : n = -(decimalValue rest : Int) := (Option.some.inj hn).symm
        have hle : decimalValue rest ≤ 2 ^ b - 1 := by
          rcases hb with rfl | rfl <;> norm_num at h1 h2 ⊢ <;> omega
        have hs1 : (if c.val = 43 ∨ c.val = 45 then rest else c :: rest) = rest := by
          rw [if_pos (Or.inr hm)]
        rw [hs1, ParseUint_of_decimal rest b hb hd hle, parseIntSigned_ok _ b hb]
        · simp [hm, hn2]
        · simp only [hm, decide_True, if_true]
          rcases hb with rfl | rfl <;> norm_num at h1 h2 ⊢ <;> omega
      · rw [if_neg hd] at hn; exact absurd hn (by simp)
    · rw [if_neg hm] at hn
      by_cases hp : c.val = 43
      · rw [if_pos hp] at hn
        by_cases hd : isDecimal rest = true
        · rw [if_pos hd] at hn
          have hn2 : n = (decimalValue rest : Int) := (Option.some.inj hn).symm
          have hle : decimalValue rest ≤ 2 ^ b - 1 := by
            rcases hb with rfl | rfl <;> norm_num at h1 h2 ⊢ <;> omega
          have hs1 : (if c.val = 43 ∨ c.val = 45 then rest else c :: rest) = rest := by
            rw [if_pos (Or.inl hp)]
          rw [hs1, ParseUint_of_decimal rest b hb hd hle, parseIntSigned_ok _ b hb]
          · simp [hm, hn2]
          · simp only [hm, decide_False, Bool.false_eq_true, if_false]
            rcases hb with rfl | rfl <;> norm_num at h1 h2 ⊢ <;> omega
        · rw [if_neg hd] at hn; exact absurd hn (by simp)
      · rw [if_neg hp] at hn
        by_cases hd : isDecimal (c :: rest) = true
        · rw [if_pos hd] at hn
          have hn2 : n = (decimalValue (c :: rest) : Int) := (Option.some.inj hn).symm
          have hle : decimalValue (c :: rest) ≤ 2 ^ b - 1 := by
            rcases hb with rfl | rfl <;> norm_num at h1 h2 ⊢ <;> omega
          have hs1 : (if c.val = 43 ∨ c.val = 45 then rest else c :: rest) = c :: rest := by
            rw [if_neg (by tauto)]
          rw [hs1, ParseUint_of_decimal _ b hb hd hle, parseIntSigned_ok _ b hb]
          · simp [hm, hn2]
          · simp only [hm, decide_False, Bool.false_eq_true, if_false]
            rcases hb with rfl | rfl <;> norm_num at h1 h2 ⊢ <;> omega
        · rw [if_neg hd] at hn; exact absurd hn (by simp)

/-- When `ParseInt` at size 32 or 64 reports no error, the text is a base-10
signed integer numeral whose value fits the size, and that value is the result. -/
theorem numeral_of_ParseInt (s : GoString) (b : Nat) (hb : b = 32 ∨ b = 64)
    (h : (ParseInt s b).2 = none) :
    ∃ n : Int, numeralValue s = some n ∧ -(2 : Int) ^ (b - 1) ≤ n ∧ n ≤ 2 ^ (b - 1) - 1
      ∧ ParseInt s b = (n, none) := by
  cases s with
  | nil => exact absurd h (by simp [ParseInt])
  | cons c rest =>
    rw [ParseInt_cons] at h
    have hr : ∀ s1 : GoString, ParseUint s1 b = (2 ^ b - 1, some .ErrRange)
        ∨ (ParseUint s1 b).2 ≠ some .ErrRange := by
      intro s1
      by_cases hnone : (ParseUint s1 b).2 = none
      · right; rw [hnone]; simp
      · rcases ParseUint_error s1 b hb hnone with h' | h'
        · exact Or.inl h'
        · right; rw [h']; simp
    obtain ⟨hnone, hrange⟩ := parseIntSigned_none _ b hb _ (hr _) h
    obtain ⟨hd, _, hpu⟩ := decimal_of_ParseUint _ b hnone
    rw [hpu] at hrange
    simp only at hrange
    have key : ∃ n : Int, numeralValue (c :: rest) = some n ∧ -(2 : Int) ^ (b - 1) ≤ n
        ∧ n ≤ 2 ^ (b - 1) - 1 := by
      rw [numeralValue_cons]
      by_cases hm : c.val = 45
      · rw [if_pos (Or.inr hm)] at hd hrange
        rw [if_pos hm, if_pos hd]
        refine ⟨_, rfl, ?_, ?_⟩ <;>
          simp only [hm, decide_True, if_true] at hrange <;>
          rcases hb with rfl | rfl <;> norm_num at hrange ⊢ <;> omega
      · by_cases hp : c.val = 43
        · rw [if_pos (Or.inl hp)] at hd hrange
          rw [if_neg hm, if_pos hp, if_pos hd]
          refine ⟨_, rfl, ?_, ?_⟩ <;>
            simp only [hm, decide_False, Bool.false_eq_true, if_false] at hrange <;>
            rcases hb with rfl | rfl <;> norm_num at hrange ⊢ <;> omega
        · have hor : ¬ (c.val = 43 ∨ c.val = 45) := fun hx => hx.elim hp hm
          rw [if_neg hor] at hd hrange
          rw [if_neg hm, if_neg hp, if_pos hd]
          refine ⟨_, rfl, ?_, ?_⟩ <;>
            simp only [hm, decide_False, Bool.false_eq_true, if_false] at hrange <;>
            rcases hb with rfl | rfl <;> norm_num at hrange ⊢ <;> omega
    obtain ⟨n, hn, h1, h2⟩ := key
    exact ⟨n, hn, h1, h2, ParseInt_of_numeral _ b hb n hn h1 h2⟩

/-! ## Lemmas on formatting -/

theorem digitByte_val (d : Nat) (hd : d < 10) : (digitByte d).val = 48 + d := by
  unfold digitByte
  rw [if_pos hd]
  show (48 + d) % 256 = 48 + d
  omega

theorem isDigit_digitByte (d : Nat) (hd : d < 10) : isDigit (digitByte d) = true := by
  have := digitByte_val d hd
  simp only [isDigit, decide_eq_true_eq]
  omega

/-- The digits written by the formatting loop at base 10 read back as `u`: with
enough fuel, reading the output from 0 is reading `acc` from `u`. The output is
never empty, and consists of digits when `acc` does. -/
theorem formatLoop_decimal (fuel : Nat) :
    ∀ (u : Nat) (acc : GoString), u < 10 ^ (fuel + 1) →
      decimalFrom 0 (formatLoop 10 fuel u acc) = decimalFrom u acc
        ∧ formatLoop 10 fuel u acc ≠ []
        ∧ (acc.all isDigit = true → (formatLoop 10 fuel u acc).all isDigit = true) := by
  induction fuel with
  | zero =>
    intro u acc hu
    have hu10 : u < 10 := by simpa using hu
    refine ⟨?_, by simp [formatLoop], ?_⟩
    · show decimalFrom 0 (digitByte u :: acc) = decimalFrom u acc
      rw [decimalFrom_cons, digitByte_val u hu10]
      congr 1
      omega
    · intro hacc
      show (digitByte u :: acc).all isDigit = true
      rw [List.all_cons, hacc, isDigit_digitByte u hu10]
      rfl
  | succ fuel ih =>
    intro u acc hu
    by_cases hge : u ≥ 10
    · have hstep : formatLoop 10 (fuel + 1) u acc
          = formatLoop 10 fuel (u / 10) (digitByte (u % 10) :: acc) := by
        simp only [formatLoop, hge, if_true]
      have hmod : u % 10 < 10 := Nat.mod_lt _ (by norm_num)
      have hdiv : u / 10 < 10 ^ (fuel + 1) := by
        apply Nat.div_lt_of_lt_mul
        calc u < 10 ^ (fuel + 1 + 1) := hu
          _ = 10 * 10 ^ (fuel + 1) := by rw [pow_succ]; ring
      obtain ⟨h1, h2, h3⟩ := ih (u / 10) (digitByte (u % 10) :: acc) hdiv
      rw [hstep]
      refine ⟨?_, h2, ?_⟩
      · rw [h1, decimalFrom_cons, digitByte_val _ hmod]
        congr 1
        omega
      · intro hacc
        apply h3
        rw [List.all_cons, hacc, isDigit_digitByte _ hmod]
        rfl
    · have hu10 : u < 10 := by omega
      have hstep : formatLoop 10 (fuel + 1) u acc = digitByte u :: acc := by
        simp only [formatLoop, hge, if_false]
      rw [hstep]
      refine ⟨?_, by simp, ?_⟩
      · rw [decimalFrom_cons, digitByte_val u hu10]
        congr 1
        omega
      · intro hacc
        rw [List.all_cons, hacc, isDigit_digitByte u hu10]
        rfl

/-- The base-10 digits of a `uint64` form a non-empty run of digits of value `u`. -/
theorem formatLoop_isDecimal (u : Nat) (hu : u < 2 ^ 64) :
    isDecimal (formatLoop 10 64 u []) = true ∧ decimalValue (formatLoop 10 64 u []) = u := by
  obtain ⟨h1, h2, h3⟩ := formatLoop_decimal 64 u [] (by
    calc u < 2 ^ 64 := hu
      _ ≤ 10 ^ (64 + 1) := by norm_num)
  exact ⟨(isDecimal_iff _).2 ⟨h2, h3 rfl⟩, h1⟩

theorem numeralValue_of_decimal (ds : GoString) (h : isDecimal ds = true) :
    numeralValue ds = some (decimalValue ds : Int) := by
  obtain ⟨hne, hall⟩ := (isDecimal_iff ds).1 h
  cases ds with
  | nil => exact absurd rfl hne
  | cons c rest =>
    rw [List.all_cons, Bool.and_eq_true] at hall
    have hc : 48 ≤ c.val ∧ c.val ≤ 57 := by simpa [isDigit] using hall.1
    rw [numeralValue_cons, if_neg (by omega), if_neg (by omega), if_pos h]

theorem numeralValue_minus (ds : GoString) (h : isDecimal ds = true) :
    numeralValue ((45 : Fin 256) :: ds) = some (-(decimalValue ds : Int)) := by
  rw [numeralValue_cons, if_pos (by rfl), if_pos h]

/-- `strconv.FormatInt(i, 10)` returns a base-10 numeral of value `i`. -/
theorem FormatInt_numeral (i : Int) (h1 : -(2 : Int) ^ 63 ≤ i) (h2 : i < 2 ^ 63) :
    ∃ s : GoString, FormatInt i 10 = .returned s ∧ numeralValue s = some i := by
  unfold FormatInt formatBits
  rw [if_neg (by omega)]
  by_cases hneg : i < 0
  · have hu : (2 ^ 64 - toUint64 i) % 2 ^ 64 = (-i).toNat := by
      unfold toUint64; omega
    obtain ⟨hd, hv⟩ := formatLoop_isDecimal (-i).toNat (by omega)
    refine ⟨_, rfl, ?_⟩
    simp only [hneg, decide_True, if_true, hu]
    rw [numeralValue_minus _ hd, hv]
    congr 1
    omega
  · have hu : toUint64 i = i.toNat := by
      unfold toUint64; omega
    obtain ⟨hd, hv⟩ := formatLoop_isDecimal i.toNat (by omega)
    refine ⟨_, rfl, ?_⟩
    simp only [hneg, decide_False, if_false, hu, Bool.false_eq_true]
    rw [numeralValue_of_decimal _ hd, hv]
    congr 1
    omega

/-- `strconv.FormatUint(u, 10)` returns a base-10 numeral of value `u`. -/
theorem FormatUint_numeral (u : Nat) (hu : u < 2 ^ 64) :
    ∃ s : GoString, FormatUint u 10 = .returned s ∧ numeralValue s = some (u : Int) := by
  unfold FormatUint formatBits
  rw [if_neg (by omega)]
  obtain ⟨hd, hv⟩ := formatLoop_isDecimal u hu
  refine ⟨_, rfl, ?_⟩
  simp only [Bool.false_eq_true, if_false]
  rw [numeralValue_of_decimal _ hd, hv]

theorem isNumeralWithin_iff (bits : Nat) (t : GoString) :
    isNumeralWithin bits t = true ↔
      ∃ n : Int, numeralValue t = some n ∧ -(2 : Int) ^ (bits - 1) ≤ n ∧ n ≤ 2 ^ (bits - 1) - 1 := by
  unfold isNumeralWithin
  cases h : numeralValue t with
  | none => simp
  | some n => simp

/-- At size 32 or 64, `ParseInt` reports no error exactly on the numerals
within the size. -/
theorem ParseInt_none_iff (s : GoString) (b : Nat) (hb : b = 32 ∨ b = 64) :
    (ParseInt s b).2 = none ↔ isNumeralWithin b s = true := by
  rw [isNumeralWithin_iff]
  constructor
  · intro h
    obtain ⟨n, hn, h1, h2, _⟩ := numeral_of_ParseInt s b hb h
    exact ⟨n, hn, h1, h2⟩
  · rintro ⟨n, hn, h1, h2⟩
    rw [ParseInt_of_numeral s b hb n hn h1 h2]

theorem IntSize_cases (p : Platform) : IntSize p = 32 ∨ IntSize p = 64 := by
  cases p
  · exact Or.inl rfl
  · exact Or.inr rfl

/-! ## Decoding the literal `null` in the sibling types -/

theorem Bool_UnmarshalJSON_null (ns : NullsBool) :
    ns.UnmarshalJSON (str "null") = ({ Bool := false, Valid := false }, none) := by
  rfl

theorem Int32_UnmarshalJSON_null (ns : NullsInt32) :
    ns.UnmarshalJSON (str "null") = ({ Int32 := ns.Int32, Valid := false }, none) := by
  simp [NullsInt32.UnmarshalJSON]

theorem Int64_UnmarshalJSON_null (ns : NullsInt64) :
    ns.UnmarshalJSON (str "null") = ({ Int64 := ns.Int64, Valid := false }, none) := by
  simp [NullsInt64.UnmarshalJSON]

theorem UInt32_UnmarshalJSON_null (ns : NullsUInt32) :
    ns.UnmarshalJSON (str "null") = ({ UInt32 := ns.UInt32, Valid := false }, none) := by
  simp [NullsUInt32.UnmarshalJSON]

theorem Float32_UnmarshalJSON_null {F : Type} (parse : GoString → F × Option GoError)
    (ns : NullsFloat32 F) :
    NullsFloat32.UnmarshalJSON parse ns (str "null")
      = ({ Float32 := ns.Float32, Valid := false }, none) := by
  simp [NullsFloat32.UnmarshalJSON]

theorem String_UnmarshalJSON_null (dec : GoString → GoString → GoString × Option GoError)
    (ns : NullsString) :
    NullsString.UnmarshalJSON dec ns (str "null")
      = ({ String := ns.String, Valid := false }, none) := by
  simp [NullsString.UnmarshalJSON]

theorem Time_UnmarshalJSON_null {T : Type} (dec : GoString → T × Option GoError)
    (ns : NullsTime T) :
    NullsTime.UnmarshalJSON dec ns (str "null") = ({ Time := ns.Time, Valid := false }, none) := by
  simp [NullsTime.UnmarshalJSON]

/-! ## The claims -/

/-- C1: `Bool.UnmarshalJSON` never returns an error, from every prior receiver
state and on every text: the texts `true` and `t` give `{Bool: true, Valid: true}`,
the texts `false` and `f` give `{Bool: false, Valid: true}`, and every other text
(such as `banana`, `null`, `True`, `1`) gives `{Bool: false, Valid: false}`. -/
theorem C1_Bool_UnmarshalJSON (ns : NullsBool) (text : GoString) :
    (ns.UnmarshalJSON text).2 = none
    ∧ (text = str "true" ∨ text = str "t" →
        (ns.UnmarshalJSON text).1 = { Bool := true, Valid := true })
    ∧ (text = str "false" ∨ text = str "f" →
        (ns.UnmarshalJSON text).1 = { Bool := false, Valid := true })
    ∧ (¬ (text = str "true" ∨ text = str "t" ∨ text = str "false" ∨ text = str "f") →
        (ns.UnmarshalJSON text).1 = { Bool := false, Valid := false })
    ∧ (ns.UnmarshalJSON (str "banana")).1 = { Bool := false, Valid := false }
    ∧ (ns.UnmarshalJSON (str "null")).1 = { Bool := false, Valid := false }
    ∧ (ns.UnmarshalJSON (str "True")).1 = { Bool := false, Valid := false }
    ∧ (ns.UnmarshalJSON (str "1")).1 = { Bool := false, Valid := false } := by
  refine ⟨?_, ?_, ?_, ?_, rfl, rfl, rfl, rfl⟩
  · simp only [NullsBool.UnmarshalJSON]
    split_ifs <;> rfl
  · intro h
    simp only [NullsBool.UnmarshalJSON]
    rw [if_pos h]
  · intro h
    have hne : ¬ (text = str "true" ∨ text = str "t") := by
      rcases h with h | h <;> rw [h] <;> decide
    simp only [NullsBool.UnmarshalJSON]
    rw [if_neg hne, if_pos h]
  · intro h
    simp only [NullsBool.UnmarshalJSON]
    rw [if_neg (by tauto), if_neg (by tauto)]

/-- C2: for every text other than `null` that is not a base-10 signed integer
numeral within `[-2^31, 2^31-1]`, and every prior receiver state,
`Int32.UnmarshalJSON` returns a non-nil error and leaves `Valid == false`. -/
theorem C2_Int32_UnmarshalJSON_rejects (ns : NullsInt32) (text : GoString)
    (hnull : text ≠ str "null") (hnum : isNumeralWithin 32 text = false) :
    (ns.UnmarshalJSON text).2 ≠ none ∧ (ns.UnmarshalJSON text).1.Valid = false := by
  have herr : (ParseInt text 32).2 ≠ none := by
    intro h
    rw [(ParseInt_none_iff text 32 (Or.inl rfl)).1 h] at hnum
    exact absurd hnum (by simp)
  unfold NullsInt32.UnmarshalJSON
  simp only [if_neg hnull, if_pos herr]
  exact ⟨herr, trivial⟩

/-- C2 at the text `99999999999`, from a receiver that was valid. -/
theorem C2_Int32_UnmarshalJSON_rejects_witness :
    str "99999999999" ≠ str "null" ∧ isNumeralWithin 32 (str "99999999999") = false
      ∧ (NullsInt32.UnmarshalJSON ⟨7, true⟩ (str "99999999999")).2 ≠ none
      ∧ (NullsInt32.UnmarshalJSON ⟨7, true⟩ (str "99999999999")).1.Valid = false :=
  ⟨by decide, by decide,
    C2_Int32_UnmarshalJSON_rejects ⟨7, true⟩ (str "99999999999") (by decide) (by decide)⟩

/-- C3 (code defect): `Int.UnmarshalJSON` on the literal `null` leaves the
receiver as it was, on both platforms, so a receiver that was valid stays
valid: from `{Int: 5, Valid: true}` the call returns a nil error and leaves
`Valid == true`. The seven other types end with `Valid == false`. -/
theorem C3_Int_UnmarshalJSON_null_keeps_valid (p : Platform) (ns : NullsInt) :
    NullsInt.UnmarshalJSON p ns (str "null") = (ns, none)
      ∧ NullsInt.UnmarshalJSON p ⟨5, true⟩ (str "null") = (⟨5, true⟩, none)
      ∧ (NullsInt.UnmarshalJSON p ⟨5, true⟩ (str "null")).1.Valid = true := by
  have h : (ParseInt (str "null") (IntSize p)).2 ≠ none := by
    cases p <;> decide
  refine ⟨?_, ?_, ?_⟩ <;> simp only [NullsInt.UnmarshalJSON, if_neg h]

/-- On every text that is not a base-10 signed integer numeral of platform
width, `Int.UnmarshalJSON` returns a nil error and leaves the receiver as it was. -/
theorem Int_UnmarshalJSON_non_numeral (p : Platform) (ns : NullsInt) (text : GoString)
    (hnum : isNumeralWithin (IntSize p) text = false) :
    NullsInt.UnmarshalJSON p ns text = (ns, none) := by
  have herr : (ParseInt text (IntSize p)).2 ≠ none := by
    intro h
    rw [(ParseInt_none_iff text (IntSize p) (IntSize_cases p)).1 h] at hnum
    exact absurd hnum (by simp)
  simp only [NullsInt.UnmarshalJSON, if_neg herr]

/-- C4 (code defect): `Int.UnmarshalJSON` drops the error of `strconv.ParseInt`:
it returns a nil error on every text, from every prior receiver state and on
both platforms. On the text `abc`, which is neither `null` nor a numeral, the call
on `{Int: 0, Valid: false}` returns nil and leaves the receiver as it was, where
`Int32.UnmarshalJSON` returns the syntax error. -/
theorem C4_Int_UnmarshalJSON_drops_error (p : Platform) (ns : NullsInt) (text : GoString) :
    (NullsInt.UnmarshalJSON p ns text).2 = none
      ∧ str "abc" ≠ str "null"
      ∧ isNumeralWithin (IntSize p) (str "abc") = false
      ∧ NullsInt.UnmarshalJSON p ⟨0, false⟩ (str "abc") = (⟨0, false⟩, none)
      ∧ NullsInt32.UnmarshalJSON ⟨0, false⟩ (str "abc") = (⟨0, false⟩, some .ErrSyntax) := by
  have habc : isNumeralWithin (IntSize p) (str "abc") = false := by
    cases p <;> decide
  have herr : (ParseInt (str "abc") (IntSize p)).2 ≠ none := by
    cases p <;> decide
  refine ⟨?_, by decide, habc, ?_, by decide⟩
  · simp only [NullsInt.UnmarshalJSON]
    split_ifs <;> rfl
  · simp only [NullsInt.UnmarshalJSON, if_neg herr]

/-- C5 (code defect): on a 64-bit platform `MarshalXMLAttr` of every valid `Int`
and of every valid `Int32` aborts: `strconv.FormatInt` is called with base
`strconv.IntSize == 64`, outside the legal bases 2 to 36. -/
theorem C5_MarshalXMLAttr_panics_on_64bit (v : Int) (name : XmlName) :
    NullsInt.MarshalXMLAttr .bits64 ⟨v, true⟩ name = .panicked
      ∧ NullsInt32.MarshalXMLAttr .bits64 ⟨v, true⟩ name = .panicked := by
  constructor <;> rfl

/-- C6 (code defect): `Int32.MarshalXMLAttr` of the valid value 42 does not give
the decimal text `42`: on a 32-bit platform the attribute value is `1a`, the
base-32 text, and on a 64-bit platform the call aborts. -/
theorem C6_Int32_MarshalXMLAttr_not_decimal (name : XmlName) :
    NullsInt32.MarshalXMLAttr .bits32 ⟨42, true⟩ name
        = .returned ({ Name := name, Value := str "1a" }, none)
      ∧ FormatInt 42 10 = .returned (str "42")
      ∧ str "1a" ≠ str "42"
      ∧ NullsInt32.MarshalXMLAttr .bits64 ⟨42, true⟩ name = .panicked := by
  refine ⟨rfl, by decide, by decide, rfl⟩

theorem numeralValue_null : numeralValue (str "null") = none := by decide

/-- C7: JSON round trip for `Int32`. For every `int32` value `v` and every prior
receiver state, `MarshalJSON` on `NewInt32(v)` returns some bytes with a nil
error, and `UnmarshalJSON` on these bytes returns a nil error and leaves the
receiver equal to `{Int32: v, Valid: true}`. -/
theorem C7_Int32_JSON_roundtrip (v : Int) (h1 : -(2 : Int) ^ 31 ≤ v) (h2 : v ≤ 2 ^ 31 - 1)
    (ns : NullsInt32) :
    ∃ bytes : GoString, (NewInt32 v).MarshalJSON = .returned (bytes, none)
      ∧ ns.UnmarshalJSON bytes = ({ Int32 := v, Valid := true }, none) := by
  obtain ⟨s, hs, hnum⟩ := FormatInt_numeral v (by omega) (by omega)
  refine ⟨s, ?_, ?_⟩
  · simp only [NullsInt32.MarshalJSON, NewInt32, jsonMarshalInt, hs, if_true]
  · have hnull : s ≠ str "null" := by
      intro h
      rw [h, numeralValue_null] at hnum
      exact absurd hnum (by simp)
    have hp : ParseInt s 32 = (v, none) :=
      ParseInt_of_numeral s 32 (Or.inl rfl) v hnum (by norm_num; omega) (by norm_num; omega)
    simp only [NullsInt32.UnmarshalJSON, if_neg hnull, hp]
    simp [toInt32_of_range v h1 (by omega)]

/-- C7 at `v = -7`, from a receiver that held another valid value. -/
theorem C7_Int32_JSON_roundtrip_witness :
    ∃ bytes : GoString, (NewInt32 (-7)).MarshalJSON = .returned (bytes, none)
      ∧ NullsInt32.UnmarshalJSON ⟨3, true⟩ bytes = ({ Int32 := -7, Valid := true }, none) :=
  C7_Int32_JSON_roundtrip (-7) (by decide) (by decide) ⟨3, true⟩

/-- C8 (code defect): the JSON round trip of `UInt32` fails at `v = 4294967295`:
`MarshalJSON` on `NewUInt32(4294967295)` returns the text `4294967295`, and
`UnmarshalJSON` on it returns a range error and leaves `Valid == false`. The same
happens at `v = 2147483648`, the least value outside the signed 32-bit range. -/
theorem C8_UInt32_JSON_roundtrip_fails :
    (NewUInt32 4294967295).MarshalJSON = .returned (str "4294967295", none)
      ∧ NullsUInt32.UnmarshalJSON ⟨0, false⟩ (str "4294967295")
          = (⟨0, false⟩, some .ErrRange)
      ∧ (NewUInt32 2147483648).MarshalJSON = .returned (str "2147483648", none)
      ∧ NullsUInt32.UnmarshalJSON ⟨0, false⟩ (str "2147483648")
          = (⟨0, false⟩, some .ErrRange) := by
  decide

/-- The JSON round trip of `UInt32` holds for the values below `2^31`. -/
theorem UInt32_JSON_roundtrip_signed_range (v : Nat) (hv : v < 2 ^ 31) (ns : NullsUInt32) :
    ∃ bytes : GoString, (NewUInt32 v).MarshalJSON = .returned (bytes, none)
      ∧ ns.UnmarshalJSON bytes = ({ UInt32 := v, Valid := true }, none) := by
  obtain ⟨s, hs, hnum⟩ := FormatUint_numeral v (by omega)
  refine ⟨s, ?_, ?_⟩
  · simp only [NullsUInt32.MarshalJSON, NewUInt32, jsonMarshalUint, hs, if_true]
  · have hnull : s ≠ str "null" := by
      intro h
      rw [h, numeralValue_null] at hnum
      exact absurd hnum (by simp)
    have hp : ParseInt s 32 = ((v : Int), none) :=
      ParseInt_of_numeral s 32 (Or.inl rfl) v hnum (by norm_num; omega) (by norm_num; omega)
    have hu : toUint32 (v : Int) = v := by unfold toUint32; omega
    simp only [NullsUInt32.UnmarshalJSON, if_neg hnull, hp]
    simp [hu]

/-- The JSON round trip of `UInt32` fails for every value from `2^31` on: the
text that `MarshalJSON` returns is rejected by `UnmarshalJSON`. -/
theorem UInt32_JSON_roundtrip_fails_above (v : Nat) (h1 : 2 ^ 31 ≤ v) (h2 : v < 2 ^ 32)
    (ns : NullsUInt32) :
    ∃ bytes : GoString, (NewUInt32 v).MarshalJSON = .returned (bytes, none)
      ∧ (ns.UnmarshalJSON bytes).2 ≠ none ∧ (ns.UnmarshalJSON bytes).1.Valid = false := by
  obtain ⟨s, hs, hnum⟩ := FormatUint_numeral v (by omega)
  refine ⟨s, ?_, ?_⟩
  · simp only [NullsUInt32.MarshalJSON, NewUInt32, jsonMarshalUint, hs, if_true]
  · have hnull : s ≠ str "null" := by
      intro h
      rw [h, numeralValue_null] at hnum
      exact absurd hnum (by simp)
    have herr : (ParseInt s 32).2 ≠ none := by
      intro h
      obtain ⟨n, hn, _, hle, _⟩ := numeral_of_ParseInt s 32 (Or.inl rfl) h
      rw [hnum] at hn
      have hvn : (v : Int) = n := Option.some.inj hn
      norm_num at hle
      omega
    simp only [NullsUInt32.UnmarshalJSON, if_neg hnull, if_pos herr]
    exact ⟨herr, trivial⟩

/-- C9, as stated, fails at the empty string: decoding the attribute that
`MarshalXMLAttr` returns for `NewString("")` into a zero-valued `String` leaves
`{String: "", Valid: false}`, not `{String: "", Valid: true}`; likewise the text
`null` comes back as `{String: "", Valid: false}`. -/
theorem C9_String_XMLAttr_roundtrip_counterexample :
    NullsString.UnmarshalXMLAttr ⟨[], false⟩ ((NewString []).MarshalXMLAttr ⟨[], str "val"⟩).1
        = (⟨[], false⟩, none)
      ∧ NullsString.UnmarshalXMLAttr ⟨[], false⟩ ((NewString []).MarshalXMLAttr ⟨[], str "val"⟩).1
        ≠ (⟨[], true⟩, none)
      ∧ NullsString.UnmarshalXMLAttr ⟨[], false⟩
          ((NewString (str "null")).MarshalXMLAttr ⟨[], str "val"⟩).1
        ≠ (⟨str "null", true⟩, none) := by
  decide

/-- C9, amended: for every string `s` other than the empty string and the text
`null`, and every attribute name, `MarshalXMLAttr` on `NewString(s)` returns the
attribute `{name, s}` with a nil error, and `UnmarshalXMLAttr` of it on a
zero-valued `String` returns a nil error and yields `{String: s, Valid: true}`. -/
theorem C9_String_XMLAttr_roundtrip (s : GoString) (name : XmlName)
    (hne : s ≠ []) (hnull : s ≠ str "null") :
    (NewString s).MarshalXMLAttr name = ({ Name := name, Value := s }, none)
      ∧ NullsString.UnmarshalXMLAttr ⟨[], false⟩ ((NewString s).MarshalXMLAttr name).1
          = ({ String := s, Valid := true }, none) := by
  have hm : (NewString s).MarshalXMLAttr name = ({ Name := name, Value := s }, none) := by
    simp [NullsString.MarshalXMLAttr, NewString]
  refine ⟨hm, ?_⟩
  rw [hm]
  simp only [NullsString.UnmarshalXMLAttr, if_neg hne, if_neg hnull]

/-- C9, amended, at the string `abc`. -/
theorem C9_String_XMLAttr_roundtrip_witness :
    (NewString (str "abc")).MarshalXMLAttr ⟨[], str "val"⟩
        = ({ Name := ⟨[], str "val"⟩, Value := str "abc" }, none)
      ∧ NullsString.UnmarshalXMLAttr ⟨[], false⟩
          ((NewString (str "abc")).MarshalXMLAttr ⟨[], str "val"⟩).1
          = ({ String := str "abc", Valid := true }, none) :=
  C9_String_XMLAttr_roundtrip (str "abc") ⟨[], str "val"⟩ (by decide) (by decide)

/-- C10: for every boolean `b` and attribute name `n`, `MarshalXMLAttr` on
`{Bool: b, Valid: true}` returns the attribute `{n, "true"}` when `b` is true and
`{n, "false"}` when `b` is false, with a nil error; and `UnmarshalXMLAttr` of that
attribute, from every prior receiver state, returns a nil error and leaves the
receiver equal to `{Bool: b, Valid: true}`. -/
theorem C10_Bool_XMLAttr_roundtrip (b : Bool) (n : XmlName) (ns : NullsBool) :
    NullsBool.MarshalXMLAttr { Bool := b, Valid := true } n
        = ({ Name := n, Value := if b then str "true" else str "false" }, none)
      ∧ ns.UnmarshalXMLAttr (NullsBool.MarshalXMLAttr { Bool := b, Valid := true } n).1
          = ({ Bool := b, Valid := true }, none) := by
  cases b
  · refine ⟨rfl, ?_⟩
    show ns.UnmarshalXMLAttr { Name := n, Value := str "false" } = _
    rfl
  · refine ⟨rfl, ?_⟩
    show ns.UnmarshalXMLAttr { Name := n, Value := str "true" } = _
    rfl

/-! ## Encoders of an invalid instance -/

/-- C11: the encoders of an instance with `Valid == false`, for each of the eight
types and for every content of the value field: `MarshalJSON` returns the bytes
`null` with a nil error, `Value` returns `(nil, nil)`, `Interface` returns `nil`,
`MarshalXMLAttr` returns the zero attribute (empty name, empty value) with a nil
error, and `MarshalXML` leaves the encoder as it was and returns `nil`. The value
field does not occur in any of these results. -/
theorem C11_invalid_encodes_as_absent {F32 F64 T E : Type}
    (encodeElement : GoValue F32 F64 T → XmlStartElement → E → E × Option GoError)
    (e : E) (start : XmlStartElement) (name : XmlName) (p : Platform)
    (toFloat64 : F32 → F64) (jsonMarshalFloat32 : F32 → GoString × Option GoError)
    (formatFloat32 : F32 → GoString) (jsonMarshalString : GoString → GoString × Option GoError)
    (jsonMarshalTime : T → GoString × Option GoError) (timeString : T → GoString)
    (b : Bool) (i : Int) (u : Nat) (f : F32) (s : GoString) (t : T) :
    (NullsBool.MarshalJSON ⟨b, false⟩ = (str "null", none)
      ∧ (NullsBool.Value ⟨b, false⟩ : GoValue F32 F64 T × Option GoError) = (.nil, none)
      ∧ (NullsBool.Interface ⟨b, false⟩ : GoValue F32 F64 T) = .nil
      ∧ NullsBool.MarshalXMLAttr ⟨b, false⟩ name = (XmlAttr.zero, none)
      ∧ NullsBool.MarshalXML encodeElement ⟨b, false⟩ e start = (e, none))
    ∧ (NullsInt.MarshalJSON ⟨i, false⟩ = .returned (str "null", none)
      ∧ (NullsInt.Value ⟨i, false⟩ : GoValue F32 F64 T × Option GoError) = (.nil, none)
      ∧ (NullsInt.Interface ⟨i, false⟩ : GoValue F32 F64 T) = .nil
      ∧ NullsInt.MarshalXMLAttr p ⟨i, false⟩ name = .returned (XmlAttr.zero, none)
      ∧ NullsInt.MarshalXML encodeElement ⟨i, false⟩ e start = (e, none))
    ∧ (NullsInt32.MarshalJSON ⟨i, false⟩ = .returned (str "null", none)
      ∧ (NullsInt32.Value ⟨i, false⟩ : GoValue F32 F64 T × Option GoError) = (.nil, none)
      ∧ (NullsInt32.Interface ⟨i, false⟩ : GoValue F32 F64 T) = .nil
      ∧ NullsInt32.MarshalXMLAttr p ⟨i, false⟩ name = .returned (XmlAttr.zero, none)
      ∧ NullsInt32.MarshalXML encodeElement ⟨i, false⟩ e start = (e, none))
    ∧ (NullsInt64.MarshalJSON ⟨i, false⟩ = .returned (str "null", none)
      ∧ (NullsInt64.Value ⟨i, false⟩ : GoValue F32 F64 T × Option GoError) = (.nil, none)
      ∧ (NullsInt64.Interface ⟨i, false⟩ : GoValue F32 F64 T) = .nil
      ∧ NullsInt64.MarshalXMLAttr ⟨i, false⟩ name = .returned (XmlAttr.zero, none)
      ∧ NullsInt64.MarshalXML encodeElement ⟨i, false⟩ e start = (e, none))
    ∧ (NullsUInt32.MarshalJSON ⟨u, false⟩ = .returned (str "null", none)
      ∧ (NullsUInt32.Value ⟨u, false⟩ : GoValue F32 F64 T × Option GoError) = (.nil, none)
      ∧ (NullsUInt32.Interface ⟨u, false⟩ : GoValue F32 F64 T) = .nil
      ∧ NullsUInt32.MarshalXMLAttr ⟨u, false⟩ name = .returned (XmlAttr.zero, none)
      ∧ NullsUInt32.MarshalXML encodeElement ⟨u, false⟩ e start = (e, none))
    ∧ (NullsFloat32.MarshalJSON jsonMarshalFloat32 ⟨f, false⟩ = (str "null", none)
      ∧ (NullsFloat32.Value toFloat64 ⟨f, false⟩ : GoValue F32 F64 T × Option GoError)
          = (.nil, none)
      ∧ (NullsFloat32.Interface ⟨f, false⟩ : GoValue F32 F64 T) = .nil
      ∧ NullsFloat32.MarshalXMLAttr formatFloat32 ⟨f, false⟩ name = (XmlAttr.zero, none)
      ∧ NullsFloat32.MarshalXML encodeElement ⟨f, false⟩ e start = (e, none))
    ∧ (NullsString.MarshalJSON jsonMarshalString ⟨s, false⟩ = (str "null", none)
      ∧ (NullsString.Value ⟨s, false⟩ : GoValue F32 F64 T × Option GoError) = (.nil, none)
      ∧ (NullsString.Interface ⟨s, false⟩ : GoValue F32 F64 T) = .nil
      ∧ NullsString.MarshalXMLAttr ⟨s, false⟩ name = (XmlAttr.zero, none)
      ∧ NullsString.MarshalXML encodeElement ⟨s, false⟩ e start = (e, none))
    ∧ (NullsTime.MarshalJSON jsonMarshalTime ⟨t, false⟩ = (str "null", none)
      ∧ (NullsTime.Value ⟨t, false⟩ : GoValue F32 F64 T × Option GoError) = (.nil, none)
      ∧ (NullsTime.Interface ⟨t, false⟩ : GoValue F32 F64 T) = .nil
      ∧ NullsTime.MarshalXMLAttr timeString ⟨t, false⟩ name = (XmlAttr.zero, none)
      ∧ NullsTime.MarshalXML encodeElement ⟨t, false⟩ e start = (e, none))
    ∧ XmlAttr.zero.Name = ⟨[], []⟩ ∧ XmlAttr.zero.Value = [] := by
  refine ⟨⟨rfl, rfl, rfl, rfl, rfl⟩, ⟨rfl, rfl, rfl, rfl, rfl⟩, ⟨rfl, rfl, rfl, rfl, rfl⟩,
    ⟨rfl, rfl, rfl, rfl, rfl⟩, ⟨rfl, rfl, rfl, rfl, rfl⟩, ⟨rfl, rfl, rfl, rfl, rfl⟩,
    ⟨rfl, rfl, rfl, rfl, rfl⟩, ⟨rfl, rfl, rfl, rfl, rfl⟩, rfl, rfl⟩

/-! ## Decoding absent XML content -/

/-- An attribute whose value is empty or the text `null` is read by
`UnmarshalXMLAttr` of `Int`, `Int32`, `Int64`, `UInt32`, `Float32`, `String` and
`Time` as absent: nil error, receiver untouched. For `Bool` this holds for the
empty value. -/
theorem UnmarshalXMLAttr_absent {F T : Type} (p : Platform)
    (parseFloat32 : GoString → F × Option GoError)
    (timeUnmarshalJSON : GoString → T × Option GoError)
    (name : XmlName) (v : GoString) (hv : v = [] ∨ v = str "null")
    (ni : NullsInt) (ni32 : NullsInt32) (ni64 : NullsInt64) (nu : NullsUInt32)
    (nf : NullsFloat32 F) (ns : NullsString) (nt : NullsTime T) (nb : NullsBool) :
    NullsInt.UnmarshalXMLAttr p ni ⟨name, v⟩ = (ni, none)
      ∧ NullsInt32.UnmarshalXMLAttr p ni32 ⟨name, v⟩ = (ni32, none)
      ∧ NullsInt64.UnmarshalXMLAttr ni64 ⟨name, v⟩ = (ni64, none)
      ∧ NullsUInt32.UnmarshalXMLAttr p nu ⟨name, v⟩ = (nu, none)
      ∧ NullsFloat32.UnmarshalXMLAttr parseFloat32 nf ⟨name, v⟩ = (nf, none)
      ∧ NullsString.UnmarshalXMLAttr ns ⟨name, v⟩ = (ns, none)
      ∧ NullsTime.UnmarshalXMLAttr timeUnmarshalJSON nt ⟨name, v⟩ = (nt, none)
      ∧ NullsBool.UnmarshalXMLAttr nb ⟨name, []⟩ = (nb, none) := by
  rcases hv with rfl | rfl <;>
    simp [NullsInt.UnmarshalXMLAttr, NullsInt32.UnmarshalXMLAttr, NullsInt64.UnmarshalXMLAttr,
      NullsUInt32.UnmarshalXMLAttr, NullsFloat32.UnmarshalXMLAttr, NullsString.UnmarshalXMLAttr,
      NullsTime.UnmarshalXMLAttr, NullsBool.UnmarshalXMLAttr]

/-- C12 (code defect): `Bool.UnmarshalXMLAttr` on an attribute whose value is the
text `null` returns a non-nil error, the syntax error of `strconv.ParseBool`, from
every prior receiver state (the receiver is left as it was). The other seven types
return a nil error on `null`, and all eight on the empty value. -/
theorem C12_Bool_UnmarshalXMLAttr_null_is_error (ns : NullsBool) (name : XmlName) :
    ns.UnmarshalXMLAttr ⟨name, str "null"⟩ = (ns, some .ErrSyntax)
      ∧ (ns.UnmarshalXMLAttr ⟨name, str "null"⟩).2 ≠ none
      ∧ ParseBool (str "null") = (false, some .ErrSyntax) := by
  refine ⟨rfl, ?_, rfl⟩
  show (some GoError.ErrSyntax : Option GoError) ≠ none
  simp

/-- C13, as stated, fails from a receiver that is valid: decoding an attribute
with the empty value, or an element with empty text content, into the `Int64`
`{Int64: 5, Valid: true}` returns a nil error and leaves `Valid == true`. -/
theorem C13_empty_XML_counterexample :
    NullsInt64.UnmarshalXMLAttr ⟨5, true⟩ ⟨⟨[], str "val"⟩, []⟩ = (⟨5, true⟩, none)
      ∧ (NullsInt64.UnmarshalXMLAttr ⟨5, true⟩ ⟨⟨[], str "val"⟩, []⟩).1.Valid ≠ false
      ∧ NullsInt64.UnmarshalXML (fun (_ : Unit) (_ : XmlStartElement) => ([], none))
          ⟨5, true⟩ () ⟨⟨[], str "val"⟩, []⟩ = (⟨5, true⟩, none)
      ∧ (NullsInt64.UnmarshalXML (fun (_ : Unit) (_ : XmlStartElement) => ([], none))
          ⟨5, true⟩ () ⟨⟨[], str "val"⟩, []⟩).1.Valid ≠ false := by
  decide

/-- C13, amended: for each of the eight types and every prior receiver state,
decoding empty XML content (`UnmarshalXMLAttr` on an attribute with the empty
value, `UnmarshalXML` on an element whose text content `DecodeElement` reads as
empty) returns a nil error and leaves the receiver as it was; so `Valid == false`
afterwards when it was false before. -/
theorem C13_empty_XML_leaves_receiver {F T D : Type} (p : Platform)
    (parseFloat32 : GoString → F × Option GoError)
    (timeUnmarshalJSON : GoString → T × Option GoError)
    (decodeElement : D → XmlStartElement → GoString × Option GoError)
    (d : D) (start : XmlStartElement) (hempty : decodeElement d start = ([], none))
    (name : XmlName)
    (nb : NullsBool) (ni : NullsInt) (ni32 : NullsInt32) (ni64 : NullsInt64)
    (nu : NullsUInt32) (nf : NullsFloat32 F) (ns : NullsString) (nt : NullsTime T) :
    (NullsBool.UnmarshalXMLAttr nb ⟨name, []⟩ = (nb, none)
      ∧ NullsBool.UnmarshalXML decodeElement nb d start = (nb, none))
    ∧ (NullsInt.UnmarshalXMLAttr p ni ⟨name, []⟩ = (ni, none)
      ∧ NullsInt.UnmarshalXML p decodeElement ni d start = (ni, none))
    ∧ (NullsInt32.UnmarshalXMLAttr p ni32 ⟨name, []⟩ = (ni32, none)
      ∧ NullsInt32.UnmarshalXML p decodeElement ni32 d start = (ni32, none))
    ∧ (NullsInt64.UnmarshalXMLAttr ni64 ⟨name, []⟩ = (ni64, none)
      ∧ NullsInt64.UnmarshalXML decodeElement ni64 d start = (ni64, none))
    ∧ (NullsUInt32.UnmarshalXMLAttr p nu ⟨name, []⟩ = (nu, none)
      ∧ NullsUInt32.UnmarshalXML p decodeElement nu d start = (nu, none))
    ∧ (NullsFloat32.UnmarshalXMLAttr parseFloat32 nf ⟨name, []⟩ = (nf, none)
      ∧ NullsFloat32.UnmarshalXML parseFloat32 decodeElement nf d start = (nf, none))
    ∧ (NullsString.UnmarshalXMLAttr ns ⟨name, []⟩ = (ns, none)
      ∧ NullsString.UnmarshalXML decodeElement ns d start = (ns, none))
    ∧ (NullsTime.UnmarshalXMLAttr timeUnmarshalJSON nt ⟨name, []⟩ = (nt, none)
      ∧ NullsTime.UnmarshalXML timeUnmarshalJSON decodeElement nt d start = (nt, none)) := by
  simp [NullsInt.UnmarshalXMLAttr, NullsInt32.UnmarshalXMLAttr, NullsInt64.UnmarshalXMLAttr,
    NullsUInt32.UnmarshalXMLAttr, NullsFloat32.UnmarshalXMLAttr, NullsString.UnmarshalXMLAttr,
    NullsTime.UnmarshalXMLAttr, NullsBool.UnmarshalXMLAttr,
    NullsInt.UnmarshalXML, NullsInt32.UnmarshalXML, NullsInt64.UnmarshalXML,
    NullsUInt32.UnmarshalXML, NullsFloat32.UnmarshalXML, NullsString.UnmarshalXML,
    NullsTime.UnmarshalXML, NullsBool.UnmarshalXML, hempty]

/-- C13, amended, at a decoder that reads empty content, on a 64-bit platform:
a zero-valued `Int64` stays invalid, and a valid `Int32` stays as it was. -/
theorem C13_empty_XML_leaves_receiver_witness :
    NullsInt64.UnmarshalXMLAttr ⟨0, false⟩ ⟨⟨[], str "val"⟩, []⟩ = (⟨0, false⟩, none)
      ∧ NullsInt64.UnmarshalXML (fun (_ : Unit) (_ : XmlStartElement) => ([], none))
          ⟨0, false⟩ () ⟨⟨[], str "val"⟩, []⟩ = (⟨0, false⟩, none)
      ∧ NullsInt32.UnmarshalXML .bits64 (fun (_ : Unit) (_ : XmlStartElement) => ([], none))
          ⟨7, true⟩ () ⟨⟨[], str "val"⟩, []⟩ = (⟨7, true⟩, none) :=
  have h := @C13_empty_XML_leaves_receiver Nat Nat Unit .bits64
    (fun _ => (0, some .ErrSyntax)) (fun _ => (0, some .ErrSyntax))
    (fun (_ : Unit) (_ : XmlStartElement) => ([], none)) () ⟨⟨[], str "val"⟩, []⟩ rfl
    ⟨[], str "val"⟩ ⟨false, false⟩ ⟨0, false⟩ ⟨7, true⟩ ⟨0, false⟩ ⟨0, false⟩ ⟨0, false⟩
    ⟨[], false⟩ ⟨0, false⟩
  ⟨h.2.2.2.1.1, h.2.2.2.1.2, h.2.2.1.2⟩

/-! ## Error paths -/

/-- C14, as stated, fails for `UnmarshalXMLAttr` from a receiver that is valid:
on the attribute value `abc`, `Int32.UnmarshalXMLAttr` on `{Int32: 5, Valid: true}`
returns a syntax error and leaves `Valid == true`. -/
theorem C14_error_paths_counterexample :
    NullsInt32.UnmarshalXMLAttr .bits64 ⟨5, true⟩ ⟨⟨[], str "val"⟩, str "abc"⟩
        = (⟨5, true⟩, some .ErrSyntax)
      ∧ ¬ ((NullsInt32.UnmarshalXMLAttr .bits64 ⟨5, true⟩ ⟨⟨[], str "val"⟩, str "abc"⟩).2 ≠ none
          → (NullsInt32.UnmarshalXMLAttr .bits64 ⟨5, true⟩
              ⟨⟨[], str "val"⟩, str "abc"⟩).1.Valid = false) := by
  decide

/-- C14, amended: for `Int32`, `Int64`, `UInt32`, `Float32` and `Bool`, for every
input and every prior receiver state, whenever `UnmarshalJSON` returns a non-nil
error the receiver's `Valid` is false afterwards; whenever `UnmarshalXMLAttr`
returns a non-nil error the receiver is left as it was. -/
theorem C14_error_paths {F : Type} (p : Platform)
    (parseFloat32 : GoString → F × Option GoError) (text : GoString) (attr : XmlAttr)
    (ni32 : NullsInt32) (ni64 : NullsInt64) (nu : NullsUInt32) (nf : NullsFloat32 F)
    (nb : NullsBool) :
    (((ni32.UnmarshalJSON text).2 ≠ none → (ni32.UnmarshalJSON text).1.Valid = false)
      ∧ ((NullsInt32.UnmarshalXMLAttr p ni32 attr).2 ≠ none →
          (NullsInt32.UnmarshalXMLAttr p ni32 attr).1 = ni32))
    ∧ (((ni64.UnmarshalJSON text).2 ≠ none → (ni64.UnmarshalJSON text).1.Valid = false)
      ∧ ((ni64.UnmarshalXMLAttr attr).2 ≠ none → (ni64.UnmarshalXMLAttr attr).1 = ni64))
    ∧ (((nu.UnmarshalJSON text).2 ≠ none → (nu.UnmarshalJSON text).1.Valid = false)
      ∧ ((NullsUInt32.UnmarshalXMLAttr p nu attr).2 ≠ none →
          (NullsUInt32.UnmarshalXMLAttr p nu attr).1 = nu))
    ∧ (((NullsFloat32.UnmarshalJSON parseFloat32 nf text).2 ≠ none →
          (NullsFloat32.UnmarshalJSON parseFloat32 nf text).1.Valid = false)
      ∧ ((NullsFloat32.UnmarshalXMLAttr parseFloat32 nf attr).2 ≠ none →
          (NullsFloat32.UnmarshalXMLAttr parseFloat32 nf attr).1 = nf))
    ∧ (((nb.UnmarshalJSON text).2 ≠ none → (nb.UnmarshalJSON text).1.Valid = false)
      ∧ ((nb.UnmarshalXMLAttr attr).2 ≠ none → (nb.UnmarshalXMLAttr attr).1 = nb)) := by
  refine ⟨⟨?_, ?_⟩, ⟨?_, ?_⟩, ⟨?_, ?_⟩, ⟨?_, ?_⟩, ⟨?_, ?_⟩⟩
  · simp only [NullsInt32.UnmarshalJSON]
    split_ifs <;> simp
  · simp only [NullsInt32.UnmarshalXMLAttr]
    split_ifs <;> simp
  · simp only [NullsInt64.UnmarshalJSON]
    split_ifs <;> simp
  · simp only [NullsInt64.UnmarshalXMLAttr]
    split_ifs <;> simp
  · simp only [NullsUInt32.UnmarshalJSON]
    split_ifs <;> simp
  · simp only [NullsUInt32.UnmarshalXMLAttr]
    split_ifs <;> simp
  · simp only [NullsFloat32.UnmarshalJSON]
    split_ifs <;> simp
  · simp only [NullsFloat32.UnmarshalXMLAttr]
    split_ifs <;> simp
  · simp only [NullsBool.UnmarshalJSON]
    split_ifs <;> simp
  · simp only [NullsBool.UnmarshalXMLAttr]
    split_ifs <;> simp

/-- C14, amended, on error paths that are taken: the text `abc` from a valid
`Int32`, by `UnmarshalJSON` and by `UnmarshalXMLAttr` on a 64-bit platform. -/
theorem C14_error_paths_witness :
    (NullsInt32.UnmarshalJSON ⟨5, true⟩ (str "abc")).2 ≠ none
      ∧ (NullsInt32.UnmarshalJSON ⟨5, true⟩ (str "abc")).1.Valid = false
      ∧ (NullsInt32.UnmarshalXMLAttr .bits64 ⟨5, true⟩ ⟨⟨[], str "val"⟩, str "abc"⟩).2 ≠ none
      ∧ (NullsInt32.UnmarshalXMLAttr .bits64 ⟨5, true⟩ ⟨⟨[], str "val"⟩, str "abc"⟩).1
          = ⟨5, true⟩ :=
  have h := @C14_error_paths Nat .bits64 (fun _ => (0, some .ErrSyntax)) (str "abc")
    ⟨⟨[], str "val"⟩, str "abc"⟩ ⟨5, true⟩ ⟨0, false⟩ ⟨0, false⟩ ⟨0, false⟩ ⟨false, false⟩
  ⟨by decide, h.1.1 (by decide), by decide, h.1.2 (by decide)⟩

/-- On every attribute value, and every element text content read by
`DecodeElement` without error, that is neither empty nor `null` and that the
timestamp parser rejects, `Time.UnmarshalXMLAttr` and `Time.UnmarshalXML` return a
nil error and leave the receiver as it was. -/
theorem Time_XML_parse_failure_returns_nil {T D : Type}
    (timeUnmarshalJSON : GoString → T × Option GoError)
    (decodeElement : D → XmlStartElement → GoString × Option GoError)
    (ns : NullsTime T) (name : XmlName) (v : GoString) (d : D) (start : XmlStartElement)
    (hne : v ≠ []) (hnull : v ≠ str "null") (hfail : (timeUnmarshalJSON v).2 ≠ none)
    (hdec : decodeElement d start = (v, none)) :
    NullsTime.UnmarshalXMLAttr timeUnmarshalJSON ns ⟨name, v⟩ = (ns, none)
      ∧ NullsTime.UnmarshalXML timeUnmarshalJSON decodeElement ns d start = (ns, none) := by
  constructor
  · simp only [NullsTime.UnmarshalXMLAttr, if_neg hne, if_neg hnull, if_neg hfail]
  · simp only [NullsTime.UnmarshalXML, hdec, if_neg hne, if_neg hnull, if_neg hfail]
    simp

/-- C16 (code defect): the XML decoders of `Time` drop the error of the timestamp
parser. `Time.UnmarshalXMLAttr` returns a nil error on every attribute, whatever
the parser answers, and the error that `Time.UnmarshalXML` returns is the one of
`DecodeElement`, never the one of the parser. With a parser that rejects the text
`banana` with the error `e`, both calls on `banana` return nil and leave the
receiver as it was, where `Time.UnmarshalJSON` on the same text returns `e`. -/
theorem C16_Time_XML_drops_parse_error {T D : Type}
    (timeUnmarshalJSON : GoString → T × Option GoError)
    (decodeElement : D → XmlStartElement → GoString × Option GoError)
    (ns : NullsTime T) (attr : XmlAttr) (d : D) (start : XmlStartElement)
    (t0 : T) (e : GoError) (name : XmlName) :
    (NullsTime.UnmarshalXMLAttr timeUnmarshalJSON ns attr).2 = none
      ∧ (NullsTime.UnmarshalXML timeUnmarshalJSON decodeElement ns d start).2
          = (decodeElement d start).2
      ∧ NullsTime.UnmarshalXMLAttr (fun _ => (t0, some e)) ns ⟨name, str "banana"⟩
          = (ns, none)
      ∧ NullsTime.UnmarshalXML (fun _ => (t0, some e))
          (fun (_ : D) (_ : XmlStartElement) => (str "banana", none)) ns d start
          = (ns, none)
      ∧ NullsTime.UnmarshalJSON (fun _ => (t0, some e)) ns (str "banana")
          = ({ Time := ns.Time, Valid := false }, some e) := by
  refine ⟨?_, ?_, rfl, rfl, rfl⟩
  · simp only [NullsTime.UnmarshalXMLAttr]
    split_ifs <;> rfl
  · simp only [NullsTime.UnmarshalXML]
    split_ifs with h1 h2 h3 h4
    · rfl
    · exact (not_not.1 h1).symm
    · exact (not_not.1 h1).symm
    · exact (not_not.1 h1).symm
    · exact (not_not.1 h1).symm

/-! ## Text decoding -/

/-- A text that begins with the letter `a` is not valid JSON: `json.Unmarshal`
returns a syntax error on `abc` and leaves the string as it was, whatever it does
on other texts. -/
theorem jsonUnmarshalString_abc (decode : GoString → GoString → GoString × Option GoError)
    (old : GoString) :
    jsonUnmarshalString decode (str "abc") old = (old, some .JSONSyntaxError) := rfl

/-- C15, as stated, fails for `String`: on the text `abc`, `UnmarshalText` stores
the text and sets `Valid`, while `UnmarshalJSON` gets a syntax error from
`json.Unmarshal`, returns nil and leaves `Valid == false` (whatever
`json.Unmarshal` does on the texts that begin a JSON value). -/
theorem C15_String_UnmarshalText_counterexample :
    NullsString.UnmarshalText ⟨[], false⟩ (str "abc") = (⟨str "abc", true⟩, none)
      ∧ (∀ decode : GoString → GoString → GoString × Option GoError,
          NullsString.UnmarshalJSON (jsonUnmarshalString decode) ⟨[], false⟩ (str "abc")
            = (⟨[], false⟩, none))
      ∧ (∀ decode : GoString → GoString → GoString × Option GoError,
          NullsString.UnmarshalText ⟨[], false⟩ (str "abc")
            ≠ NullsString.UnmarshalJSON (jsonUnmarshalString decode) ⟨[], false⟩ (str "abc")) := by
  have h : ∀ decode : GoString → GoString → GoString × Option GoError,
      NullsString.UnmarshalJSON (jsonUnmarshalString decode) ⟨[], false⟩ (str "abc")
        = (⟨[], false⟩, none) := fun _ => rfl
  refine ⟨rfl, h, ?_⟩
  intro decode
  rw [h decode]
  decide

/-- C15, amended: for `Bool`, `Int`, `Int32`, `Int64`, `UInt32`, `Float32` and
`Time`, for every text and every prior receiver state, `UnmarshalText` returns the
same error and leaves the same receiver state as `UnmarshalJSON`.
`String.UnmarshalText` does not decode JSON: it returns a nil error, leaves
`Valid == false` on the text `null`, and on every other text stores the text as it
is with `Valid == true`. -/
theorem C15_UnmarshalText {F T : Type} (p : Platform)
    (parseFloat32 : GoString → F × Option GoError)
    (timeUnmarshalJSON : GoString → T × Option GoError) (text : GoString)
    (nb : NullsBool) (ni : NullsInt) (ni32 : NullsInt32) (ni64 : NullsInt64)
    (nu : NullsUInt32) (nf : NullsFloat32 F) (nt : NullsTime T) (ns : NullsString) :
    nb.UnmarshalText text = nb.UnmarshalJSON text
      ∧ NullsInt.UnmarshalText p ni text = NullsInt.UnmarshalJSON p ni text
      ∧ ni32.UnmarshalText text = ni32.UnmarshalJSON text
      ∧ ni64.UnmarshalText text = ni64.UnmarshalJSON text
      ∧ nu.UnmarshalText text = nu.UnmarshalJSON text
      ∧ NullsFloat32.UnmarshalText parseFloat32 nf text
          = NullsFloat32.UnmarshalJSON parseFloat32 nf text
      ∧ NullsTime.UnmarshalText timeUnmarshalJSON nt text
          = NullsTime.UnmarshalJSON timeUnmarshalJSON nt text
      ∧ ns.UnmarshalText (str "null") = ({ String := ns.String, Valid := false }, none)
      ∧ (text ≠ str "null" →
          ns.UnmarshalText text = ({ String := text, Valid := true }, none)) := by
  refine ⟨rfl, rfl, rfl, rfl, rfl, rfl, rfl, rfl, ?_⟩
  intro h
  simp only [NullsString.UnmarshalText, if_neg h]

/-! ## The driver protocol -/

theorem toInt32_eq_twosComplement32 (n : Int) : toInt32 n = twosComplement32 n := by
  unfold toInt32 twosComplement32
  simp only
  split_ifs <;> omega

/-- C17: `Value` on a valid instance returns a nil error and widens without
changing the number: for every `int32` `v`, `Int32{v, true}.Value()` is the
`int64` `v`; for every `uint32` `u`, `UInt32{u, true}.Value()` is the `int64` `u`,
which is not negative; for every `int64` `w`, `Int64{w, true}.Value()` is `w`. -/
theorem C17_Value_widens {F32 F64 T : Type} (v : Int) (hv1 : -(2 : Int) ^ 31 ≤ v)
    (hv2 : v ≤ 2 ^ 31 - 1) (u : Nat) (hu : u ≤ 2 ^ 32 - 1) (w : Int) :
    (NullsInt32.Value ⟨v, true⟩ : GoValue F32 F64 T × Option GoError) = (.int64 v, none)
      ∧ (NullsUInt32.Value ⟨u, true⟩ : GoValue F32 F64 T × Option GoError)
          = (.int64 (u : Int), none)
      ∧ (0 : Int) ≤ (u : Int)
      ∧ (NullsInt64.Value ⟨w, true⟩ : GoValue F32 F64 T × Option GoError)
          = (.int64 w, none) := by
  have h1 : toInt64 v = v := toInt64_of_range v (by omega) (by omega)
  have h2 : toInt64 (u : Int) = (u : Int) := toInt64_of_range _ (by omega) (by omega)
  refine ⟨?_, ?_, by omega, rfl⟩
  · simp [NullsInt32.Value, h1]
  · simp [NullsUInt32.Value, h2]

/-- C17 at the least `int32`, the greatest `uint32` and the least `int64`. -/
theorem C17_Value_widens_witness :
    (NullsInt32.Value ⟨-2147483648, true⟩ : GoValue Nat Nat Nat × Option GoError)
        = (.int64 (-2147483648), none)
      ∧ (NullsUInt32.Value ⟨4294967295, true⟩ : GoValue Nat Nat Nat × Option GoError)
          = (.int64 4294967295, none)
      ∧ (NullsInt64.Value ⟨-9223372036854775808, true⟩ : GoValue Nat Nat Nat × Option GoError)
          = (.int64 (-9223372036854775808), none) :=
  have h := @C17_Value_widens Nat Nat Nat (-2147483648) (by decide)
    (by decide) 4294967295 (by decide) (-9223372036854775808)
  ⟨h.1, h.2.1, h.2.2.2⟩

/-- C18: `Int32.Scan` of an `int64` raw value `n`, from every prior receiver
state, returns a nil error and leaves `{Int32: int32(n), Valid: true}`, where
`int32(n)` is `n mod 2^32` read as a signed number (so `2147483648` gives
`-2147483648` and `99999999999` gives `1215752191`); of a nil raw value it returns
a nil error and leaves `{Int32: 0, Valid: false}`. -/
theorem C18_Int32_Scan {F32 F64 T : Type}
    (convertAssign : GoValue F32 F64 T → Int → Int × Option GoError)
    (ns : NullsInt32) (n : Int) :
    NullsInt32.Scan convertAssign ns (.int64 n) = ({ Int32 := toInt32 n, Valid := true }, none)
      ∧ toInt32 n = twosComplement32 n
      ∧ NullsInt32.Scan convertAssign ns .nil = ({ Int32 := 0, Valid := false }, none)
      ∧ NullsInt32.Scan convertAssign ns (.int64 2147483648)
          = ({ Int32 := -2147483648, Valid := true }, none)
      ∧ NullsInt32.Scan convertAssign ns (.int64 99999999999)
          = ({ Int32 := 1215752191, Valid := true }, none) := by
  refine ⟨rfl, toInt32_eq_twosComplement32 n, ?_, ?_, ?_⟩
  · show (({ Int32 := toInt32 0, Valid := false } : NullsInt32), (none : Option GoError)) = _
    rw [show toInt32 0 = 0 by decide]
  · show (({ Int32 := toInt32 2147483648, Valid := true } : NullsInt32),
      (none : Option GoError)) = _
    rw [show toInt32 2147483648 = -2147483648 by decide]
  · show (({ Int32 := toInt32 99999999999, Valid := true } : NullsInt32),
      (none : Option GoError)) = _
    rw [show toInt32 99999999999 = 1215752191 by decide]

/-- C19: `Time.Scan` returns a nil error for every raw value and every prior
receiver state. Afterwards `Valid` is true exactly when the raw value is a
timestamp, and then `Time` is that timestamp; for every other raw value (nil,
strings, integers among them) `Valid` is false and `Time` is the zero timestamp. -/
theorem C19_Time_Scan {F32 F64 T : Type} (zeroTime : T) (ns : NullsTime T)
    (value : GoValue F32 F64 T) :
    (NullsTime.Scan zeroTime ns value).2 = none
      ∧ ((NullsTime.Scan zeroTime ns value).1.Valid = true ↔ ∃ t, value = .time t)
      ∧ (∀ t, value = .time t →
          (NullsTime.Scan zeroTime ns value).1 = { Time := t, Valid := true })
      ∧ ((∀ t, value ≠ .time t) →
          (NullsTime.Scan zeroTime ns value).1 = { Time := zeroTime, Valid := false })
      ∧ (NullsTime.Scan zeroTime ns (.nil : GoValue F32 F64 T)).1
          = { Time := zeroTime, Valid := false }
      ∧ (∀ s, (NullsTime.Scan zeroTime ns (.string s : GoValue F32 F64 T)).1
          = { Time := zeroTime, Valid := false })
      ∧ (∀ i, (NullsTime.Scan zeroTime ns (.int64 i : GoValue F32 F64 T)).1
          = { Time := zeroTime, Valid := false }) := by
  refine ⟨?_, ?_, ?_, ?_, rfl, fun _ => rfl, fun _ => rfl⟩
  · cases value <;> rfl
  · cases value <;> simp [NullsTime.Scan]
  · intro t ht
    rw [ht]
    rfl
  · intro h
    cases value <;> first | rfl | exact absurd rfl (h _)

/-! ## The two bounds of the `Int32` decoders -/

theorem numeralValue_nil : numeralValue [] = none := rfl

/-- C20: on a 64-bit platform, for every attribute value that is the base-10
numeral of an integer `n` in `[-2^63, 2^63-1]`, `Int32.UnmarshalXMLAttr` returns a
nil error and leaves `{Int32: int32(n), Valid: true}`, where `int32(n)` is `n`
reduced to 32-bit two's complement; when `n` is outside the `int32` range,
`Int32.UnmarshalJSON` on the same text returns an error. -/
theorem C20_Int32_XMLAttr_platform_bound (t : GoString) (n : Int)
    (hnum : numeralValue t = some n) (h1 : -(2 : Int) ^ 63 ≤ n) (h2 : n ≤ 2 ^ 63 - 1)
    (ns ns2 : NullsInt32) (name : XmlName) :
    NullsInt32.UnmarshalXMLAttr .bits64 ns ⟨name, t⟩
        = ({ Int32 := toInt32 n, Valid := true }, none)
      ∧ toInt32 n = twosComplement32 n
      ∧ (n < -(2 : Int) ^ 31 ∨ 2 ^ 31 - 1 < n → (ns2.UnmarshalJSON t).2 ≠ none) := by
  have hne : t ≠ [] := by
    intro h
    rw [h, numeralValue_nil] at hnum
    exact absurd hnum (by simp)
  have hnull : t ≠ str "null" := by
    intro h
    rw [h, numeralValue_null] at hnum
    exact absurd hnum (by simp)
  have hp : ParseInt t 64 = (n, none) :=
    ParseInt_of_numeral t 64 (Or.inr rfl) n hnum (by norm_num; omega) (by norm_num; omega)
  refine ⟨?_, toInt32_eq_twosComplement32 n, ?_⟩
  · simp [NullsInt32.UnmarshalXMLAttr, IntSize, hne, hnull, hp]
  · intro hout
    have herr : (ParseInt t 32).2 ≠ none := by
      intro h
      obtain ⟨m, hm, hlo, hhi, _⟩ := numeral_of_ParseInt t 32 (Or.inl rfl) h
      rw [hnum] at hm
      have hnm : n = m := Option.some.inj hm
      norm_num at hlo hhi
      omega
    simp only [NullsInt32.UnmarshalJSON, if_neg hnull, if_pos herr]
    exact herr

/-- C20 at the attribute value `99999999999`, from a valid receiver: the
attribute decoder leaves `{Int32: 1215752191, Valid: true}`, the JSON decoder
returns an error. -/
theorem C20_Int32_XMLAttr_platform_bound_witness :
    numeralValue (str "99999999999") = some 99999999999
      ∧ NullsInt32.UnmarshalXMLAttr .bits64 ⟨7, true⟩ ⟨⟨[], str "val"⟩, str "99999999999"⟩
          = ({ Int32 := 1215752191, Valid := true }, none)
      ∧ (NullsInt32.UnmarshalJSON ⟨7, true⟩ (str "99999999999")).2 ≠ none :=
  have h := C20_Int32_XMLAttr_platform_bound (str "99999999999") 99999999999 (by decide)
    (by decide) (by decide) ⟨7, true⟩ ⟨7, true⟩ ⟨[], str "val"⟩
  ⟨by decide, h.1.trans (by decide), h.2.2 (Or.inr (by decide))⟩

/-! ## Decoders relative to their parsers, and agreement of decode paths -/

/-- C21: `Float32.UnmarshalXMLAttr`, relative to the call
`strconv.ParseFloat(attr.Value, 32)` (the parameter `parseFloat`) and the
conversion `float32(val)` (the parameter `toFloat32`): for every attribute value
`t` that is neither empty nor `null`, when the parse succeeds with result `f` the
call returns a nil error and leaves `{Float32: float32(f), Valid: true}`; when the
parse fails the call returns that error and leaves the receiver as it was. -/
theorem C21_Float32_UnmarshalXMLAttr {F F64 : Type}
    (parseFloat : GoString → F64 × Option GoError) (toFloat32 : F64 → F)
    (ns : NullsFloat32 F) (name : XmlName) (t : GoString)
    (hne : t ≠ []) (hnull : t ≠ str "null") :
    (∀ f, parseFloat t = (f, none) →
        NullsFloat32.UnmarshalXMLAttr (fun s => (toFloat32 (parseFloat s).1, (parseFloat s).2))
          ns ⟨name, t⟩ = ({ Float32 := toFloat32 f, Valid := true }, none))
      ∧ (∀ f e, parseFloat t = (f, some e) →
        NullsFloat32.UnmarshalXMLAttr (fun s => (toFloat32 (parseFloat s).1, (parseFloat s).2))
          ns ⟨name, t⟩ = (ns, some e)) := by
  constructor
  · intro f hf
    simp [NullsFloat32.UnmarshalXMLAttr, hne, hnull, hf]
  · intro f e hf
    simp [NullsFloat32.UnmarshalXMLAttr, hne, hnull, hf]

/-- C21 at the attribute values `3.22` and `abc`, with a parser that reads `3.22`
as 322 hundredths and rejects every other text, into a valid receiver. -/
theorem C21_Float32_UnmarshalXMLAttr_witness :
    NullsFloat32.UnmarshalXMLAttr
        (fun s => (((if s = str "3.22" then ((322 : Nat), none)
            else (0, some GoError.ErrSyntax)) : Nat × Option GoError).1,
          ((if s = str "3.22" then ((322 : Nat), none)
            else (0, some GoError.ErrSyntax)) : Nat × Option GoError).2))
        ⟨7, true⟩ ⟨⟨[], str "val"⟩, str "3.22"⟩ = ({ Float32 := 322, Valid := true }, none)
      ∧ NullsFloat32.UnmarshalXMLAttr
        (fun s => (((if s = str "3.22" then ((322 : Nat), none)
            else (0, some GoError.ErrSyntax)) : Nat × Option GoError).1,
          ((if s = str "3.22" then ((322 : Nat), none)
            else (0, some GoError.ErrSyntax)) : Nat × Option GoError).2))
        ⟨7, true⟩ ⟨⟨[], str "val"⟩, str "abc"⟩ = (⟨7, true⟩, some .ErrSyntax) :=
  ⟨(@C21_Float32_UnmarshalXMLAttr Nat Nat
      (fun s => if s = str "3.22" then ((322 : Nat), none) else (0, some GoError.ErrSyntax))
      (fun x => x) ⟨7, true⟩ ⟨[], str "val"⟩ (str "3.22") (by decide) (by decide)).1 322 rfl,
    (@C21_Float32_UnmarshalXMLAttr Nat Nat
      (fun s => if s = str "3.22" then ((322 : Nat), none) else (0, some GoError.ErrSyntax))
      (fun x => x) ⟨7, true⟩ ⟨[], str "val"⟩ (str "abc") (by decide) (by decide)).2 0
      .ErrSyntax rfl⟩

/-- C22: `UInt32.UnmarshalJSON` accepts negative numerals and wraps them. For
every text that is the base-10 numeral of an integer `n` in `[-2^31, 2^31-1]` and
every prior receiver state, it returns a nil error and leaves
`{UInt32: uint32(n), Valid: true}`, where `uint32(n)` is `n + 2^32` for `n` in
`[-2^31, -1]` and `n` for `n` in `[0, 2^31-1]`. -/
theorem C22_UInt32_UnmarshalJSON_wraps (t : GoString) (n : Int)
    (hnum : numeralValue t = some n) (h1 : -(2 : Int) ^ 31 ≤ n) (h2 : n ≤ 2 ^ 31 - 1)
    (ns : NullsUInt32) :
    ns.UnmarshalJSON t = ({ UInt32 := toUint32 n, Valid := true }, none)
      ∧ (n ≤ -1 → (toUint32 n : Int) = n + 2 ^ 32)
      ∧ (0 ≤ n → (toUint32 n : Int) = n) := by
  have hnull : t ≠ str "null" := by
    intro h
    rw [h, numeralValue_null] at hnum
    exact absurd hnum (by simp)
  have hp : ParseInt t 32 = (n, none) :=
    ParseInt_of_numeral t 32 (Or.inl rfl) n hnum (by norm_num; omega) (by norm_num; omega)
  refine ⟨?_, ?_, ?_⟩
  · simp [NullsUInt32.UnmarshalJSON, hnull, hp]
  · intro hneg
    unfold toUint32
    omega
  · intro hpos
    unfold toUint32
    omega

/-- C22 at the text `-1`, from a valid receiver: the result is 4294967295. -/
theorem C22_UInt32_UnmarshalJSON_wraps_witness :
    numeralValue (str "-1") = some (-1)
      ∧ NullsUInt32.UnmarshalJSON ⟨7, true⟩ (str "-1")
          = ({ UInt32 := 4294967295, Valid := true }, none) :=
  have h := C22_UInt32_UnmarshalJSON_wraps (str "-1") (-1) (by decide) (by decide)
    (by decide) ⟨7, true⟩
  ⟨by decide, h.1.trans (by decide)⟩

/-- C23: on in-range input the two `Int32` decode paths agree. For every text `t`
that is the base-10 numeral of an integer `n` in `[-2^31, 2^31-1]`, on either
platform and from every prior receiver state, `Int32.UnmarshalJSON(t)` and
`Int32.UnmarshalXMLAttr` on an attribute with value `t` both return a nil error
and leave `{Int32: n, Valid: true}`. -/
theorem C23_Int32_decode_paths_agree (p : Platform) (t : GoString) (n : Int)
    (hnum : numeralValue t = some n) (h1 : -(2 : Int) ^ 31 ≤ n) (h2 : n ≤ 2 ^ 31 - 1)
    (ns1 ns2 : NullsInt32) (name : XmlName) :
    ns1.UnmarshalJSON t = ({ Int32 := n, Valid := true }, none)
      ∧ NullsInt32.UnmarshalXMLAttr p ns2 ⟨name, t⟩ = ({ Int32 := n, Valid := true }, none) := by
  have hne : t ≠ [] := by
    intro h
    rw [h, numeralValue_nil] at hnum
    exact absurd hnum (by simp)
  have hnull : t ≠ str "null" := by
    intro h
    rw [h, numeralValue_null] at hnum
    exact absurd hnum (by simp)
  have h32 : toInt32 n = n := toInt32_of_range n h1 (by omega)
  have hp32 : ParseInt t 32 = (n, none) :=
    ParseInt_of_numeral t 32 (Or.inl rfl) n hnum (by norm_num; omega) (by norm_num; omega)
  have hpp : ParseInt t (IntSize p) = (n, none) := by
    cases p
    · exact hp32
    · exact ParseInt_of_numeral t 64 (Or.inr rfl) n hnum (by norm_num; omega)
        (by norm_num; omega)
  constructor
  · simp [NullsInt32.UnmarshalJSON, hnull, hp32, h32]
  · simp [NullsInt32.UnmarshalXMLAttr, hne, hnull, hpp, h32]

/-- C23 at the text `-2147483648` on a 64-bit platform, from two receivers that
held different values. -/
theorem C23_Int32_decode_paths_agree_witness :
    numeralValue (str "-2147483648") = some (-2147483648)
      ∧ NullsInt32.UnmarshalJSON ⟨7, true⟩ (str "-2147483648")
          = ({ Int32 := -2147483648, Valid := true }, none)
      ∧ NullsInt32.UnmarshalXMLAttr .bits64 ⟨0, false⟩ ⟨⟨[], str "val"⟩, str "-2147483648"⟩
          = ({ Int32 := -2147483648, Valid := true }, none) :=
  have h := C23_Int32_decode_paths_agree .bits64 (str "-2147483648") (-2147483648) (by decide)
    (by decide) (by decide) ⟨7, true⟩ ⟨0, false⟩ ⟨[], str "val"⟩
  ⟨by decide, h.1, h.2⟩

/-- C24: the boolean tokens of the JSON path are accepted by the XML path with
the same meaning. A text `t` on which `Bool.UnmarshalJSON` leaves `Valid == true`
is one of `true`, `t`, `false`, `f` (and on each of these it does), and
`Bool.UnmarshalXMLAttr` on an attribute with value `t`, from every prior receiver
state, returns a nil error and leaves the same state. The texts `1` and `TRUE` are
decoded to a valid `Bool` by the XML path while the JSON path leaves
`Valid == false`. -/
theorem C24_Bool_JSON_tokens_subset_of_XML (ns ns2 : NullsBool) (name : XmlName)
    (t : GoString) (hvalid : (ns.UnmarshalJSON t).1.Valid = true) :
    (t = str "true" ∨ t = str "t" ∨ t = str "false" ∨ t = str "f")
      ∧ ns2.UnmarshalXMLAttr ⟨name, t⟩ = ((ns.UnmarshalJSON t).1, none)
      ∧ (∀ s, s = str "true" ∨ s = str "t" ∨ s = str "false" ∨ s = str "f" →
          (ns.UnmarshalJSON s).1.Valid = true)
      ∧ (ns2.UnmarshalXMLAttr ⟨name, str "1"⟩ = ({ Bool := true, Valid := true }, none)
          ∧ (ns.UnmarshalJSON (str "1")).1.Valid = false)
      ∧ (ns2.UnmarshalXMLAttr ⟨name, str "TRUE"⟩ = ({ Bool := true, Valid := true }, none)
          ∧ (ns.UnmarshalJSON (str "TRUE")).1.Valid = false) := by
  have hfour : t = str "true" ∨ t = str "t" ∨ t = str "false" ∨ t = str "f" := by
    by_contra hc
    have h1 : ¬ (t = str "true" ∨ t = str "t") := fun h => hc (by tauto)
    have h2 : ¬ (t = str "false" ∨ t = str "f") := fun h => hc (by tauto)
    simp only [NullsBool.UnmarshalJSON, if_neg h1, if_neg h2] at hvalid
    exact absurd hvalid (by simp)
  refine ⟨hfour, ?_, ?_, ⟨rfl, rfl⟩, ⟨rfl, rfl⟩⟩
  · rcases hfour with rfl | rfl | rfl | rfl <;> rfl
  · intro s hs
    rcases hs with rfl | rfl | rfl | rfl <;> rfl

/-- C24 at the text `t`, from two receivers in different states. -/
theorem C24_Bool_JSON_tokens_subset_of_XML_witness :
    (NullsBool.UnmarshalJSON ⟨false, false⟩ (str "t")).1 = ⟨true, true⟩
      ∧ NullsBool.UnmarshalXMLAttr ⟨false, true⟩ ⟨⟨[], str "val"⟩, str "t"⟩
          = (⟨true, true⟩, none) :=
  have h := C24_Bool_JSON_tokens_subset_of_XML ⟨false, false⟩ ⟨false, true⟩ ⟨[], str "val"⟩
    (str "t") rfl
  ⟨rfl, h.2.1⟩
